import Mathlib

/-!
# BMM150 magnetometer driver front end (`bmm150_main.cpp`)

A shallow embedding of the bus table and of the `start` / `stop` / `status`
operations of `src/drivers/magnetometer/bmm150/bmm150_main.cpp`.

* The global array `bus_options[]` is a list of `bmm150_bus_option`; a pointer
  into the array (the result of `find_bus`) is an index, `nullptr` is `none`.
* The `dev` pointer of an entry is an `Option BMM150`; a `BMM150` object is
  identified by the ordinal of the `new` expression that created it, together
  with the constructor arguments.
* The driver class `BMM150` is an external collaborator: whether a `new`
  expression yields an object and what `init()` returns are given by a
  `Driver` environment.
* Every operation returns its return code, the world after the call, and the
  list of observable events of the call (allocations, `init` calls, deletions,
  `print_info` calls and console messages), in program order.
* The entry point `bmm150_main` takes the library functions it calls
  (`px4_getopt` and the rotation conversion) from a `Shell` environment.
-/

/-- The bus selector `enum class BMM150_BUS`. -/
inductive BMM150_BUS where
  | ALL
  | I2C_INTERNAL
  | I2C_EXTERNAL
deriving DecidableEq, Repr

namespace bmm150

/-- The type `enum Rotation`, kept as its numeric value. -/
abbrev Rotation := Nat

/-- Modelled from the spec: the PX4 status code for success (exit code 0). -/
def PX4_OK : Int := 0

/-- Modelled from the spec: the PX4 status code for failure (non-zero exit code). -/
def PX4_ERROR : Int := -1

/-- A driver object created by `new BMM150(busnum, rotation)`: `id` is the ordinal
of the `new` expression that created it, the other fields are the constructor
arguments. -/
structure BMM150 where
  id : Nat
  busnum : Nat
  rotation : Rotation
deriving DecidableEq, Repr

/-- One element of `bus_options[]` (`struct bmm150_bus_option`). -/
structure bmm150_bus_option where
  busid : BMM150_BUS
  busnum : Nat
  address : Nat
  dev : Option BMM150
deriving DecidableEq, Repr

/-- The external driver class: `alloc k` tells whether the `k`-th `new`
expression yields an object (rather than `nullptr`), `init d` is the value
returned by `d->init()`. -/
structure Driver where
  alloc : Nat → Bool
  init : BMM150 → Int

/-- Observable events of a call, in program order. -/
inductive Event where
  | new_expr (k : Nat) (busnum : Nat) (rotation : Rotation) (ok : Bool)
  | init (d : BMM150) (ret : Int)
  | delete (d : BMM150)
  | print_info (d : BMM150)
  | warn (msg : String)
  | err (msg : String)
  | info (msg : String)
deriving DecidableEq, Repr

/-- The free store: `news` counts the `new` expressions evaluated so far, `live`
lists the objects constructed and not yet deleted. -/
structure Heap where
  news : Nat
  live : List BMM150
deriving DecidableEq, Repr

/-- The program state: the global table and the free store. -/
structure World where
  bus_options : List bmm150_bus_option
  heap : Heap
deriving DecidableEq, Repr

/-- What a call returns: return code, resulting world, emitted events. -/
structure Result where
  ret : Int
  world : World
  trace : List Event
deriving DecidableEq, Repr

/-- The loop of `find_bus` over a table: index of the first entry with
`(busid == ALL || busid == bus_option.busid) && bus_option.dev != nullptr`. -/
def find_bus_in (busid : BMM150_BUS) : List bmm150_bus_option → Option Nat
  | [] => none
  | bus_option :: rest =>
    if (busid = BMM150_BUS.ALL ∨ busid = bus_option.busid) ∧ bus_option.dev ≠ none then
      some 0
    else
      (find_bus_in busid rest).map (· + 1)

/-- The function `find_bus(busid)`: a pointer to an entry, or `nullptr`. -/
def find_bus (busid : BMM150_BUS) (w : World) : Option Nat :=
  find_bus_in busid w.bus_options

/-- What `start_bus` yields: its boolean result, the entry passed by reference,
the free store and the events. -/
structure BusResult where
  ok : Bool
  bus : bmm150_bus_option
  heap : Heap
  trace : List Event
deriving DecidableEq, Repr

/-- The function `start_bus(bus, rotation)`. -/
def start_bus (env : Driver) (bus : bmm150_bus_option) (rotation : Rotation) (h : Heap) :
    BusResult :=
  let k := h.news
  if env.alloc k then
    let dev : BMM150 := ⟨k, bus.busnum, rotation⟩
    if env.init dev ≠ PX4_OK then
      { ok := false, bus := bus, heap := ⟨k + 1, (dev :: h.live).erase dev⟩,
        trace := [Event.new_expr k bus.busnum rotation true, Event.init dev (env.init dev),
                  Event.err "driver start failed", Event.delete dev] }
    else
      { ok := true, bus := { bus with dev := some dev }, heap := ⟨k + 1, dev :: h.live⟩,
        trace := [Event.new_expr k bus.busnum rotation true, Event.init dev (env.init dev)] }
  else
    { ok := false, bus := bus, heap := ⟨k + 1, h.live⟩,
      trace := [Event.new_expr k bus.busnum rotation false, Event.err "driver start failed"] }

/-- What the loop of `start` yields over a part of the table. -/
structure LoopResult where
  ret : Int
  table : List bmm150_bus_option
  heap : Heap
  trace : List Event
deriving DecidableEq, Repr

/-- The range-for loop of `start` over the entries still to visit, followed by
the final `return PX4_ERROR`. -/
def start_loop (env : Driver) (busid : BMM150_BUS) (rotation : Rotation) :
    List bmm150_bus_option → Heap → LoopResult
  | [], h => { ret := PX4_ERROR, table := [], heap := h, trace := [] }
  | bus_option :: rest, h =>
    if bus_option.dev ≠ none then
      let r := start_loop env busid rotation rest h
      { ret := r.ret, table := bus_option :: r.table, heap := r.heap,
        trace := Event.warn "already started" :: r.trace }
    else if busid ≠ BMM150_BUS.ALL ∧ bus_option.busid ≠ busid then
      let r := start_loop env busid rotation rest h
      { ret := r.ret, table := bus_option :: r.table, heap := r.heap, trace := r.trace }
    else
      let sb := start_bus env bus_option rotation h
      if sb.ok then
        { ret := PX4_OK, table := sb.bus :: rest, heap := sb.heap, trace := sb.trace }
      else
        let r := start_loop env busid rotation rest sb.heap
        { ret := r.ret, table := sb.bus :: r.table, heap := r.heap,
          trace := sb.trace ++ r.trace }

/-- The function `start(busid, rotation)`. -/
def start (env : Driver) (busid : BMM150_BUS) (rotation : Rotation) (w : World) : Result :=
  let r := start_loop env busid rotation w.bus_options w.heap
  { ret := r.ret, world := ⟨r.table, r.heap⟩, trace := r.trace }

/-- The failure exit shared by `stop` and `status`. -/
def not_running (w : World) : Result :=
  { ret := PX4_ERROR, world := w, trace := [Event.warn "driver not running"] }

/-- The function `stop(busid)`. -/
def stop (busid : BMM150_BUS) (w : World) : Result :=
  match find_bus busid w with
  | none => not_running w
  | some i =>
    match w.bus_options[i]? with
    | none => not_running w
    | some bus =>
      match bus.dev with
      | none => not_running w
      | some d =>
        { ret := PX4_OK,
          world := ⟨w.bus_options.set i { bus with dev := none },
                    ⟨w.heap.news, w.heap.live.erase d⟩⟩,
          trace := [Event.delete d] }

/-- The function `status(busid)`. -/
def status (busid : BMM150_BUS) (w : World) : Result :=
  match find_bus busid w with
  | none => not_running w
  | some i =>
    match w.bus_options[i]? with
    | none => not_running w
    | some bus =>
      match bus.dev with
      | none => not_running w
      | some d => { ret := PX4_OK, world := w, trace := [Event.print_info d] }

/-- Modelled from the spec: the default orientation "none", the enumerator
`ROTATION_NONE` of `enum Rotation`. -/
def ROTATION_NONE : Rotation := 0

/-- What the calls of `px4_getopt(argc, argv, "XIR:", &myoptind, &myoptarg)` yield
on one argument vector: `opts` lists the values returned before `EOF`, each with
the `myoptarg` it sets, and `rest` lists the arguments from `argv[myoptind]` on once
`EOF` is returned. -/
structure Parsed where
  opts : List (Char × Option String)
  rest : List String
deriving DecidableEq, Repr

/-- The library functions `bmm150_main` relies on: `px4_getopt`, and the
conversion `(enum Rotation)atoi(myoptarg)`. -/
structure Shell where
  px4_getopt : List String → Parsed
  to_rotation : Option String → Rotation

/-- The function `usage()`. -/
def usage (w : World) : Result :=
  { ret := 0, world := w,
    trace := [Event.info "missing command: try \x27start\x27, \x27stop\x27, \x27status\x27",
              Event.info "options:",
              Event.info "    -X    (i2c external bus)",
              Event.info "    -I    (i2c internal bus)",
              Event.info "    -R rotation"] }

/-- The option loop of `bmm150_main` over the values `px4_getopt` returns:
`none` when the `default` case is reached, otherwise the selector and the rotation
at the end of the loop. -/
def option_loop (to_rotation : Option String → Rotation) :
    List (Char × Option String) → BMM150_BUS → Rotation → Option (BMM150_BUS × Rotation)
  | [], busid, rotation => some (busid, rotation)
  | (ch, myoptarg) :: more, busid, rotation =>
    if ch = 'X' then
      option_loop to_rotation more BMM150_BUS.I2C_EXTERNAL rotation
    else if ch = 'I' then
      option_loop to_rotation more BMM150_BUS.I2C_INTERNAL rotation
    else if ch = 'R' then
      option_loop to_rotation more busid (to_rotation myoptarg)
    else
      none

/-- The function `bmm150_main(argc, argv)`. -/
def bmm150_main (env : Driver) (sh : Shell) (argv : List String) (w : World) : Result :=
  match option_loop sh.to_rotation (sh.px4_getopt argv).opts BMM150_BUS.ALL ROTATION_NONE with
  | none => usage w
  | some (busid, rotation) =>
    match (sh.px4_getopt argv).rest with
    | [] => usage w
    | verb :: _ =>
      if verb = "start" then
        start env busid rotation w
      else if verb = "stop" then
        stop busid w
      else if verb = "status" then
        status busid w
      else
        usage w

/-- A shell whose `px4_getopt` yields `p` on every argument vector and whose
rotation conversion yields `ROTATION_NONE`. -/
def shell_fixed (p : Parsed) : Shell := ⟨fun _ => p, fun _ => ROTATION_NONE⟩

/-- A call of one of the three operations. -/
inductive Call where
  | start (busid : BMM150_BUS) (rotation : Rotation)
  | stop (busid : BMM150_BUS)
  | status (busid : BMM150_BUS)
deriving DecidableEq, Repr

/-- The effect of one call. -/
def step (env : Driver) (c : Call) (w : World) : Result :=
  match c with
  | Call.start busid rotation => start env busid rotation w
  | Call.stop busid => stop busid w
  | Call.status busid => status busid w

/-- The world after a finite sequence of calls. -/
def run (env : Driver) : List Call → World → World
  | [], w => w
  | c :: cs, w => run env cs (step env c w).world

/-! ## Vocabulary of the specification -/

/-- An entry is occupied when its `dev` pointer is not null. -/
def occupied (b : bmm150_bus_option) : Bool := b.dev.isSome

/-- An entry is in the scope of a selector when the selector is `ALL` or equals
the entry's `busid`. -/
def in_scope (busid : BMM150_BUS) (b : bmm150_bus_option) : Bool :=
  decide (busid = BMM150_BUS.ALL) || decide (busid = b.busid)

/-- An entry that `start` would try: unoccupied and in scope. -/
def eligible (busid : BMM150_BUS) (b : bmm150_bus_option) : Bool :=
  !occupied b && in_scope busid b

/-- An entry that `find_bus` accepts: occupied and in scope. -/
def running (busid : BMM150_BUS) (b : bmm150_bus_option) : Bool :=
  occupied b && in_scope busid b

/-- The attempts of a scan of `l` in which every attempt fails: the unoccupied
in-scope entries in declaration order, each with the ordinal of the `new`
expression that serves it, counting from `n`. -/
def attempts (busid : BMM150_BUS) (n : Nat) (l : List bmm150_bus_option) :
    List (Nat × bmm150_bus_option) :=
  (l.filter (eligible busid)).enumFrom n

/-- The attempt `p = (k, b)` succeeds: the `k`-th `new` expression yields an object
and `init()` of the object built for `b.busnum` and `rotation` returns `PX4_OK`. -/
def attempt_ok (env : Driver) (rotation : Rotation) (p : Nat × bmm150_bus_option) : Bool :=
  env.alloc p.1 && decide (env.init ⟨p.1, p.2.busnum, rotation⟩ = PX4_OK)

/-- The events of a failed attempt `p = (k, b)`. -/
def failed_trace (env : Driver) (rotation : Rotation) (p : Nat × bmm150_bus_option) :
    List Event :=
  if env.alloc p.1 then
    [Event.new_expr p.1 p.2.busnum rotation true,
     Event.init ⟨p.1, p.2.busnum, rotation⟩ (env.init ⟨p.1, p.2.busnum, rotation⟩),
     Event.err "driver start failed", Event.delete ⟨p.1, p.2.busnum, rotation⟩]
  else
    [Event.new_expr p.1 p.2.busnum rotation false, Event.err "driver start failed"]

/-- The driver calls of a failed attempt `p = (k, b)`: the `new` expression and,
when it yields an object, `init()` and `delete` on that object. -/
def failed_calls (env : Driver) (rotation : Rotation) (p : Nat × bmm150_bus_option) :
    List Event :=
  if env.alloc p.1 then
    [Event.new_expr p.1 p.2.busnum rotation true,
     Event.init ⟨p.1, p.2.busnum, rotation⟩ (env.init ⟨p.1, p.2.busnum, rotation⟩),
     Event.delete ⟨p.1, p.2.busnum, rotation⟩]
  else
    [Event.new_expr p.1 p.2.busnum rotation false]

/-- The events of a successful attempt `p = (k, b)`. -/
def ok_trace (env : Driver) (rotation : Rotation) (p : Nat × bmm150_bus_option) :
    List Event :=
  [Event.new_expr p.1 p.2.busnum rotation true,
   Event.init ⟨p.1, p.2.busnum, rotation⟩ (env.init ⟨p.1, p.2.busnum, rotation⟩)]

/-- Calls into the driver class, as opposed to console messages. -/
def is_call : Event → Bool
  | Event.new_expr _ _ _ _ => true
  | Event.init _ _ => true
  | Event.delete _ => true
  | Event.print_info _ => true
  | Event.warn _ => false
  | Event.err _ => false
  | Event.info _ => false

/-- The driver calls of a trace, in order. -/
def calls (tr : List Event) : List Event := tr.filter is_call

/-- The warnings of a trace, in order. -/
def warnings : List Event → List String
  | [] => []
  | Event.warn msg :: tr => msg :: warnings tr
  | _ :: tr => warnings tr

/-- The events of a scan of `l` in which every attempt fails, the first attempt
having ordinal `n`. -/
def failed_scan_trace (env : Driver) (busid : BMM150_BUS) (rotation : Rotation) :
    Nat → List bmm150_bus_option → List Event
  | _, [] => []
  | n, b :: rest =>
    if occupied b then
      Event.warn "already started" :: failed_scan_trace env busid rotation n rest
    else if in_scope busid b then
      failed_trace env rotation (n, b) ++ failed_scan_trace env busid rotation (n + 1) rest
    else
      failed_scan_trace env busid rotation n rest

/-- The table of the two-entry scenario: internal bus 1 at address 0x10 and
external bus 2 at address 0x12, both unoccupied. -/
def two_entry_table : List bmm150_bus_option :=
  [⟨BMM150_BUS.I2C_INTERNAL, 1, 0x10, none⟩, ⟨BMM150_BUS.I2C_EXTERNAL, 2, 0x12, none⟩]

/-- A driver whose `new` always yields an object and whose `init()` always succeeds. -/
def driver_ok : Driver := ⟨fun _ => true, fun _ => PX4_OK⟩

/-- A driver whose `new` always yields an object and whose `init()` always fails. -/
def driver_failing : Driver := ⟨fun _ => true, fun _ => PX4_ERROR⟩

/-- A driver whose `new` always yields `nullptr` (and whose `init()` would fail). -/
def driver_no_memory : Driver := ⟨fun _ => false, fun _ => PX4_ERROR⟩

/-- A driver whose `init()` fails on bus 1 and succeeds on every other bus. -/
def driver_bus1_failing : Driver :=
  ⟨fun _ => true, fun d => if d.busnum = 1 then PX4_ERROR else PX4_OK⟩

/-- The state at process start: every entry unoccupied and no live driver object. -/
def initial (w : World) : Bool :=
  w.bus_options.all (fun b => !occupied b) && w.heap.live.isEmpty

/-- Every `start` of the sequence is called in a state with no occupied entry. -/
def start_guarded (env : Driver) : List Call → World → Bool
  | [], _ => true
  | c :: cs, w =>
    (match c with
      | Call.start _ _ => w.bus_options.all (fun b => !occupied b)
      | _ => true) &&
    start_guarded env cs (step env c w).world

/-- A world reachable from a state at process start by a finite sequence of
`start`, `stop` and `status` calls. -/
def reachable (env : Driver) (w : World) : Prop :=
  ∃ (cs : List Call) (w0 : World), initial w0 = true ∧ w = run env cs w0

/-- The driver objects held by the entries of a table, in declaration order. -/
def devices (l : List bmm150_bus_option) : List BMM150 :=
  l.filterMap (fun b => b.dev)

/-- The ownership invariant: the live objects are the objects held by the entries,
no object is held by two entries, and every held object comes from a `new`
expression already evaluated. -/
def owned (w : World) : Prop :=
  List.Perm w.heap.live (devices w.bus_options) ∧
  (devices w.bus_options).Nodup ∧
  ∀ d ∈ devices w.bus_options, d.id < w.heap.news

/-- The fixed part of an entry: bus class, bus number and address. -/
def wiring (b : bmm150_bus_option) : BMM150_BUS × Nat × Nat :=
  (b.busid, b.busnum, b.address)

/-! ## Lemmas on `find_bus` -/

theorem running_iff (busid : BMM150_BUS) (b : bmm150_bus_option) :
    running busid b = true ↔
      ((busid = BMM150_BUS.ALL ∨ busid = b.busid) ∧ b.dev ≠ none) := by
  cases hb : b.dev <;> simp [running, occupied, in_scope, hb]

theorem find_bus_in_eq_some_iff (busid : BMM150_BUS) :
    ∀ (l : List bmm150_bus_option) (i : Nat),
      find_bus_in busid l = some i ↔
        ((∃ b, l[i]? = some b ∧ running busid b = true) ∧
          ∀ j, j < i → ∀ bj, l[j]? = some bj → running busid bj = false)
  | [], i => by simp [find_bus_in]
  | b :: rest, i => by
    have ih := find_bus_in_eq_some_iff busid rest
    by_cases hb : running busid b = true
    · have hc := (running_iff busid b).1 hb
      simp only [find_bus_in, hc, ne_eq, not_false_eq_true, and_self, if_true]
      constructor
      · intro h
        cases h
        simp [hb]
      · rintro ⟨-, hlt⟩
        cases i with
        | zero => rfl
        | succ i =>
          have := hlt 0 (Nat.succ_pos i) b (by simp)
          simp [hb] at this
    · have hc : ¬ ((busid = BMM150_BUS.ALL ∨ busid = b.busid) ∧ b.dev ≠ none) :=
        fun h => hb ((running_iff busid b).2 h)
      have hb' : running busid b = false := by simpa using hb
      simp only [find_bus_in, hc, if_false]
      cases i with
      | zero => simp [hb']
      | succ i =>
        simp only [Option.map_eq_some', Nat.add_right_cancel_iff, exists_eq_right, ih,
          List.getElem?_cons_succ]
        constructor
        · rintro ⟨hex, hlt⟩
          refine ⟨hex, ?_⟩
          intro j hj bj hbj
          cases j with
          | zero =>
            simp at hbj
            subst hbj
            exact hb'
          | succ j =>
            exact hlt j (Nat.lt_of_succ_lt_succ hj) bj (by simpa using hbj)
        · rintro ⟨hex, hlt⟩
          refine ⟨hex, ?_⟩
          intro j hj bj hbj
          exact hlt (j + 1) (Nat.succ_lt_succ hj) bj (by simpa using hbj)

theorem find_bus_in_eq_none_iff (busid : BMM150_BUS) :
    ∀ (l : List bmm150_bus_option),
      find_bus_in busid l = none ↔ ∀ b ∈ l, running busid b = false
  | [] => by simp [find_bus_in]
  | b :: rest => by
    have ih := find_bus_in_eq_none_iff busid rest
    by_cases hb : running busid b = true
    · have hc := (running_iff busid b).1 hb
      simp [find_bus_in, hc, hb]
    · have hc : ¬ ((busid = BMM150_BUS.ALL ∨ busid = b.busid) ∧ b.dev ≠ none) :=
        fun h => hb ((running_iff busid b).2 h)
      have hb' : running busid b = false := by simpa using hb
      simp [find_bus_in, hc, ih, hb']

theorem find_bus_some_entry {busid : BMM150_BUS} {w : World} {i : Nat}
    (h : find_bus busid w = some i) :
    ∃ b d, w.bus_options[i]? = some b ∧ b.dev = some d ∧ in_scope busid b = true ∧
      ∀ j, j < i → ∀ bj, w.bus_options[j]? = some bj → running busid bj = false := by
  obtain ⟨⟨b, hb, hr⟩, hlt⟩ := (find_bus_in_eq_some_iff busid w.bus_options i).1 h
  simp only [running, occupied, Bool.and_eq_true] at hr
  obtain ⟨d, hd⟩ := Option.isSome_iff_exists.1 hr.1
  exact ⟨b, d, hb, hd, hr.2, hlt⟩

theorem running_false_iff (busid : BMM150_BUS) (b : bmm150_bus_option) :
    running busid b = false ↔ ¬ (occupied b = true ∧ in_scope busid b = true) := by
  simp [running]

theorem running_true_iff (busid : BMM150_BUS) (b : bmm150_bus_option) :
    running busid b = true ↔ (occupied b = true ∧ in_scope busid b = true) := by
  simp [running]

theorem mem_of_getElem?_eq_some {l : List bmm150_bus_option} {i : Nat}
    {b : bmm150_bus_option} (h : l[i]? = some b) : b ∈ l := by
  rcases List.getElem?_eq_some_iff.1 h with ⟨hi, rfl⟩
  exact List.getElem_mem hi

theorem stop_of_found {busid : BMM150_BUS} {w : World} {i : Nat} {b : bmm150_bus_option}
    {d : BMM150} (h : find_bus busid w = some i) (hb : w.bus_options[i]? = some b)
    (hd : b.dev = some d) :
    stop busid w =
      { ret := PX4_OK,
        world := ⟨w.bus_options.set i { b with dev := none },
                  ⟨w.heap.news, w.heap.live.erase d⟩⟩,
        trace := [Event.delete d] } := by
  simp [stop, h, hb, hd]

theorem status_of_found {busid : BMM150_BUS} {w : World} {i : Nat} {b : bmm150_bus_option}
    {d : BMM150} (h : find_bus busid w = some i) (hb : w.bus_options[i]? = some b)
    (hd : b.dev = some d) :
    status busid w = { ret := PX4_OK, world := w, trace := [Event.print_info d] } := by
  simp [status, h, hb, hd]

theorem stop_of_not_found {busid : BMM150_BUS} {w : World} (h : find_bus busid w = none) :
    stop busid w = not_running w := by
  simp [stop, h]

theorem status_of_not_found {busid : BMM150_BUS} {w : World} (h : find_bus busid w = none) :
    status busid w = not_running w := by
  simp [status, h]

theorem PX4_ERROR_ne_zero : PX4_ERROR ≠ 0 := by decide

theorem PX4_ERROR_ne_OK : PX4_ERROR ≠ PX4_OK := by decide

/-! ## The lookup, `stop` and `status` -/

/-- C5: `find_bus(busid)` returns the entry of smallest index among the entries
that are occupied and in the scope of the selector, it returns `nullptr` exactly
when no entry is both occupied and in scope; being a function of the world to an
optional index it leaves the table as it is. -/
theorem find_bus_first_running (busid : BMM150_BUS) (w : World) :
    (∀ i, find_bus busid w = some i ↔
        ((∃ b, w.bus_options[i]? = some b ∧ occupied b = true ∧ in_scope busid b = true) ∧
          ∀ j, j < i → ∀ bj, w.bus_options[j]? = some bj →
            ¬ (occupied bj = true ∧ in_scope busid bj = true))) ∧
    (find_bus busid w = none ↔
        ∀ b ∈ w.bus_options, ¬ (occupied b = true ∧ in_scope busid b = true)) := by
  refine ⟨fun i => ?_, ?_⟩
  · rw [find_bus, find_bus_in_eq_some_iff]
    simp only [running_false_iff, running_true_iff]
  · rw [find_bus, find_bus_in_eq_none_iff]
    simp only [running_false_iff]

/-- C2: when `find_bus(busid)` finds entry `i`, that entry is the first occupied
entry in scope, `stop(busid)` returns 0, deletes exactly the device of that entry,
and the resulting table is the original one with entry `i` set to unoccupied,
every other entry being unchanged. -/
theorem stop_clears_found (busid : BMM150_BUS) (w : World) (i : Nat)
    (h : find_bus busid w = some i) :
    ∃ b d, w.bus_options[i]? = some b ∧ b.dev = some d ∧ in_scope busid b = true ∧
      (∀ j, j < i → ∀ bj, w.bus_options[j]? = some bj →
        ¬ (occupied bj = true ∧ in_scope busid bj = true)) ∧
      (stop busid w).ret = PX4_OK ∧ (stop busid w).ret = 0 ∧
      (stop busid w).world.bus_options = w.bus_options.set i { b with dev := none } ∧
      (stop busid w).world.bus_options[i]? = some { b with dev := none } ∧
      (∀ j, j ≠ i → (stop busid w).world.bus_options[j]? = w.bus_options[j]?) ∧
      (stop busid w).world.bus_options.length = w.bus_options.length ∧
      (stop busid w).trace = [Event.delete d] ∧
      (stop busid w).world.heap = ⟨w.heap.news, w.heap.live.erase d⟩ := by
  obtain ⟨b, d, hb, hd, hs, hlt⟩ := find_bus_some_entry h
  have hi : i < w.bus_options.length := by
    rcases List.getElem?_eq_some_iff.1 hb with ⟨hi, -⟩
    exact hi
  refine ⟨b, d, hb, hd, hs, ?_, ?_⟩
  · intro j hj bj hbj
    exact (running_false_iff busid bj).1 (hlt j hj bj hbj)
  · rw [stop_of_found h hb hd]
    refine ⟨rfl, rfl, rfl, ?_, ?_, ?_, rfl, rfl⟩
    · simp [hi]
    · intro j hj
      simp [List.getElem?_set, Ne.symm hj]
    · simp

/-- Witness for C2 on a two-entry table whose external entry is occupied. -/
theorem stop_clears_found_witness :
    find_bus BMM150_BUS.ALL
      ⟨[⟨BMM150_BUS.I2C_INTERNAL, 1, 0x10, none⟩,
        ⟨BMM150_BUS.I2C_EXTERNAL, 2, 0x12, some ⟨0, 2, 0⟩⟩], ⟨1, [⟨0, 2, 0⟩]⟩⟩ = some 1 ∧
    (stop BMM150_BUS.ALL
      ⟨[⟨BMM150_BUS.I2C_INTERNAL, 1, 0x10, none⟩,
        ⟨BMM150_BUS.I2C_EXTERNAL, 2, 0x12, some ⟨0, 2, 0⟩⟩], ⟨1, [⟨0, 2, 0⟩]⟩⟩).ret = PX4_OK :=
  ⟨by decide,
   match stop_clears_found BMM150_BUS.ALL
      ⟨[⟨BMM150_BUS.I2C_INTERNAL, 1, 0x10, none⟩,
        ⟨BMM150_BUS.I2C_EXTERNAL, 2, 0x12, some ⟨0, 2, 0⟩⟩], ⟨1, [⟨0, 2, 0⟩]⟩⟩ 1
      (by decide) with
   | ⟨_, _, _, _, _, _, hret, _⟩ => hret⟩

/-- C3: `stop(busid)` returns non-zero exactly when no entry in the scope of the
selector is occupied; it then returns `PX4_ERROR`, leaves the world (table and
free store) as it was and deletes no device. On a table with no occupied entry
it fails whatever the selector. -/
theorem stop_fails_iff (busid : BMM150_BUS) (w : World) :
    ((stop busid w).ret ≠ 0 ↔
        ∀ b ∈ w.bus_options, ¬ (occupied b = true ∧ in_scope busid b = true)) ∧
    ((stop busid w).ret ≠ 0 →
        (stop busid w).ret = PX4_ERROR ∧ (stop busid w).world = w ∧
          ∀ d, Event.delete d ∉ (stop busid w).trace) ∧
    ((∀ b ∈ w.bus_options, occupied b = false) →
        ∀ sel, (stop sel w).ret ≠ 0 ∧ (stop sel w).world = w) := by
  have key : ∀ sel, (∀ b ∈ w.bus_options, running sel b = false) →
      stop sel w = not_running w := fun sel hn =>
    stop_of_not_found ((find_bus_in_eq_none_iff sel w.bus_options).2 hn)
  have hiff : (stop busid w).ret ≠ 0 ↔ ∀ b ∈ w.bus_options, running busid b = false := by
    constructor
    · intro hne
      cases hf : find_bus busid w with
      | none => exact (find_bus_in_eq_none_iff busid w.bus_options).1 hf
      | some i =>
        obtain ⟨b, d, hb, hd, -, -⟩ := find_bus_some_entry hf
        rw [stop_of_found hf hb hd] at hne
        exact absurd rfl hne
    · intro hn
      rw [key busid hn]
      exact PX4_ERROR_ne_zero
  refine ⟨?_, ?_, ?_⟩
  · rw [hiff]
    simp only [running_false_iff]
  · intro hne
    rw [key busid (hiff.1 hne)]
    refine ⟨rfl, rfl, ?_⟩
    intro d
    simp [not_running]
  · intro hall sel
    have hn : ∀ b ∈ w.bus_options, running sel b = false := by
      intro b hb
      simp [running, hall b hb]
    rw [key sel hn]
    exact ⟨PX4_ERROR_ne_zero, rfl⟩

/-- C4: `status(busid)` returns 0 exactly when some entry in the scope of the
selector is occupied; it then calls `print_info` on exactly one device, the one of
the first occupied entry in scope; when it fails it calls `print_info` on none;
in both outcomes the world is unchanged. -/
theorem status_ok_iff (busid : BMM150_BUS) (w : World) :
    ((status busid w).ret = 0 ↔
        ∃ b ∈ w.bus_options, occupied b = true ∧ in_scope busid b = true) ∧
    ((status busid w).ret = 0 →
        ∃ (i : Nat) (b : bmm150_bus_option) (d : BMM150),
          w.bus_options[i]? = some b ∧ b.dev = some d ∧ in_scope busid b = true ∧
          (∀ j, j < i → ∀ bj, w.bus_options[j]? = some bj →
            ¬ (occupied bj = true ∧ in_scope busid bj = true)) ∧
          (status busid w).trace = [Event.print_info d]) ∧
    ((status busid w).ret ≠ 0 →
        (status busid w).ret = PX4_ERROR ∧ ∀ d, Event.print_info d ∉ (status busid w).trace) ∧
    (status busid w).world = w := by
  cases hf : find_bus busid w with
  | none =>
    have hn := (find_bus_in_eq_none_iff busid w.bus_options).1 hf
    rw [status_of_not_found hf]
    refine ⟨?_, ?_, ?_, rfl⟩
    · constructor
      · intro h0
        exact absurd h0 PX4_ERROR_ne_zero
      · rintro ⟨b, hb, ho, hs⟩
        have := hn b hb
        simp [running, ho, hs] at this
    · intro h0
      exact absurd h0 PX4_ERROR_ne_zero
    · intro _
      exact ⟨rfl, by simp [not_running]⟩
  | some i =>
    obtain ⟨b, d, hb, hd, hs, hlt⟩ := find_bus_some_entry hf
    rw [status_of_found hf hb hd]
    refine ⟨?_, ?_, ?_, rfl⟩
    · constructor
      · intro _
        exact ⟨b, mem_of_getElem?_eq_some hb, by simp [occupied, hd], hs⟩
      · intro _
        rfl
    · intro _
      exact ⟨i, b, d, hb, hd, hs,
        fun j hj bj hbj => (running_false_iff busid bj).1 (hlt j hj bj hbj), rfl⟩
    · intro hne
      exact absurd rfl hne

/-! ## Lemmas on `start_bus` and on the loop of `start` -/

theorem start_bus_of_fail {env : Driver} {rotation : Rotation} {b : bmm150_bus_option}
    {h : Heap} (hf : attempt_ok env rotation (h.news, b) = false) :
    start_bus env b rotation h =
      { ok := false, bus := b, heap := ⟨h.news + 1, h.live⟩,
        trace := failed_trace env rotation (h.news, b) } := by
  unfold start_bus failed_trace
  by_cases ha : env.alloc h.news = true
  · have hi : env.init ⟨h.news, b.busnum, rotation⟩ ≠ PX4_OK := by
      simpa [attempt_ok, ha] using hf
    simp [ha, hi]
  · simp [ha]

theorem start_bus_of_ok {env : Driver} {rotation : Rotation} {b : bmm150_bus_option}
    {h : Heap} (hs : attempt_ok env rotation (h.news, b) = true) :
    start_bus env b rotation h =
      { ok := true, bus := { b with dev := some ⟨h.news, b.busnum, rotation⟩ },
        heap := ⟨h.news + 1, ⟨h.news, b.busnum, rotation⟩ :: h.live⟩,
        trace := ok_trace env rotation (h.news, b) } := by
  unfold start_bus ok_trace
  simp only [attempt_ok, Bool.and_eq_true, decide_eq_true_eq] at hs
  simp [hs.1, hs.2]

theorem eligible_iff (busid : BMM150_BUS) (b : bmm150_bus_option) :
    eligible busid b = true ↔
      (b.dev = none ∧ ¬ (busid ≠ BMM150_BUS.ALL ∧ b.busid ≠ busid)) := by
  by_cases h1 : busid = BMM150_BUS.ALL
  · cases hb : b.dev <;> simp [eligible, occupied, in_scope, hb, h1]
  · by_cases h2 : busid = b.busid
    · have h2' : b.busid = busid := h2.symm
      cases hb : b.dev <;> simp [eligible, occupied, in_scope, hb, h2']
    · have h2' : ¬ b.busid = busid := fun h => h2 h.symm
      cases hb : b.dev <;> simp [eligible, occupied, in_scope, hb, h1, h2, h2']

theorem occupied_iff (b : bmm150_bus_option) : occupied b = true ↔ b.dev ≠ none := by
  cases hb : b.dev <;> simp [occupied, hb]

theorem eligible_of_occupied (busid : BMM150_BUS) {b : bmm150_bus_option}
    (h : occupied b = true) : eligible busid b = false := by
  simp [eligible, h]

theorem eligible_of_out {busid : BMM150_BUS} {b : bmm150_bus_option}
    (h : in_scope busid b = false) : eligible busid b = false := by
  simp [eligible, h]

theorem start_loop_cons_occupied (env : Driver) (busid : BMM150_BUS) (rotation : Rotation)
    {b : bmm150_bus_option} (rest : List bmm150_bus_option) (h : Heap)
    (ho : occupied b = true) :
    start_loop env busid rotation (b :: rest) h =
      { ret := (start_loop env busid rotation rest h).ret,
        table := b :: (start_loop env busid rotation rest h).table,
        heap := (start_loop env busid rotation rest h).heap,
        trace := Event.warn "already started" :: (start_loop env busid rotation rest h).trace } := by
  have hd : b.dev ≠ none := (occupied_iff b).1 ho
  simp [start_loop, hd]

theorem start_loop_cons_out (env : Driver) (busid : BMM150_BUS) (rotation : Rotation)
    {b : bmm150_bus_option} (rest : List bmm150_bus_option) (h : Heap)
    (ho : occupied b = false) (hs : in_scope busid b = false) :
    start_loop env busid rotation (b :: rest) h =
      { ret := (start_loop env busid rotation rest h).ret,
        table := b :: (start_loop env busid rotation rest h).table,
        heap := (start_loop env busid rotation rest h).heap,
        trace := (start_loop env busid rotation rest h).trace } := by
  have hd : b.dev = none := by
    cases hb : b.dev with
    | none => rfl
    | some d => simp [occupied, hb] at ho
  have he : ¬ (b.dev = none ∧ ¬ (busid ≠ BMM150_BUS.ALL ∧ b.busid ≠ busid)) := by
    rw [← eligible_iff, eligible_of_out hs]
    simp
  have hc : busid ≠ BMM150_BUS.ALL ∧ b.busid ≠ busid := by
    by_contra hn
    exact he ⟨hd, hn⟩
  simp [start_loop, hd, hc.1, hc.2]

theorem start_loop_cons_fail (env : Driver) (busid : BMM150_BUS) (rotation : Rotation)
    {b : bmm150_bus_option} (rest : List bmm150_bus_option) (h : Heap)
    (he : eligible busid b = true) (hf : attempt_ok env rotation (h.news, b) = false) :
    start_loop env busid rotation (b :: rest) h =
      { ret := (start_loop env busid rotation rest ⟨h.news + 1, h.live⟩).ret,
        table := b :: (start_loop env busid rotation rest ⟨h.news + 1, h.live⟩).table,
        heap := (start_loop env busid rotation rest ⟨h.news + 1, h.live⟩).heap,
        trace := failed_trace env rotation (h.news, b) ++
          (start_loop env busid rotation rest ⟨h.news + 1, h.live⟩).trace } := by
  obtain ⟨hd, hc⟩ := (eligible_iff busid b).1 he
  rw [start_loop]
  simp only [hd, ne_eq, not_true_eq_false, if_false, hc, start_bus_of_fail hf]
  simp

theorem start_loop_cons_ok (env : Driver) (busid : BMM150_BUS) (rotation : Rotation)
    {b : bmm150_bus_option} (rest : List bmm150_bus_option) (h : Heap)
    (he : eligible busid b = true) (hs : attempt_ok env rotation (h.news, b) = true) :
    start_loop env busid rotation (b :: rest) h =
      { ret := PX4_OK,
        table := { b with dev := some ⟨h.news, b.busnum, rotation⟩ } :: rest,
        heap := ⟨h.news + 1, ⟨h.news, b.busnum, rotation⟩ :: h.live⟩,
        trace := ok_trace env rotation (h.news, b) } := by
  obtain ⟨hd, hc⟩ := (eligible_iff busid b).1 he
  rw [start_loop]
  simp only [hd, ne_eq, not_true_eq_false, if_false, hc, start_bus_of_ok hs]
  simp

theorem attempts_cons_eligible {busid : BMM150_BUS} {b : bmm150_bus_option}
    (n : Nat) (l : List bmm150_bus_option) (he : eligible busid b = true) :
    attempts busid n (b :: l) = (n, b) :: attempts busid (n + 1) l := by
  simp [attempts, List.filter_cons, he, List.enumFrom_cons]

theorem attempts_cons_not {busid : BMM150_BUS} {b : bmm150_bus_option}
    (n : Nat) (l : List bmm150_bus_option) (he : eligible busid b = false) :
    attempts busid n (b :: l) = attempts busid n l := by
  simp [attempts, List.filter_cons, he]

theorem attempts_append (busid : BMM150_BUS) (n : Nat) (l₁ l₂ : List bmm150_bus_option) :
    attempts busid n (l₁ ++ l₂) =
      attempts busid n l₁ ++
        attempts busid (n + (l₁.filter (eligible busid)).length) l₂ := by
  simp [attempts, List.filter_append, List.enumFrom_append]

theorem attempts_length (busid : BMM150_BUS) (n : Nat) (l : List bmm150_bus_option) :
    (attempts busid n l).length = (l.filter (eligible busid)).length := by
  simp [attempts]

/-- A scan in which every attempt fails returns `PX4_ERROR`, leaves the table and
the live objects as they were, and emits `failed_scan_trace`. -/
theorem start_loop_of_all_fail (env : Driver) (busid : BMM150_BUS) (rotation : Rotation) :
    ∀ (l : List bmm150_bus_option) (h : Heap),
      (∀ p ∈ attempts busid h.news l, attempt_ok env rotation p = false) →
      start_loop env busid rotation l h =
        { ret := PX4_ERROR, table := l,
          heap := ⟨h.news + (l.filter (eligible busid)).length, h.live⟩,
          trace := failed_scan_trace env busid rotation h.news l }
  | [], h, _ => by simp [start_loop, failed_scan_trace]
  | b :: rest, h, hall => by
    by_cases ho : occupied b = true
    · have he := eligible_of_occupied busid ho
      rw [attempts_cons_not _ _ he] at hall
      rw [start_loop_cons_occupied env busid rotation rest h ho,
        start_loop_of_all_fail env busid rotation rest h hall]
      simp [failed_scan_trace, ho, List.filter_cons, he]
    · have ho' : occupied b = false := by simpa using ho
      by_cases hs : in_scope busid b = true
      · have he : eligible busid b = true := by simp [eligible, ho', hs]
        rw [attempts_cons_eligible _ _ he] at hall
        have hf := hall (h.news, b) (List.mem_cons_self _ _)
        have hrest : ∀ p ∈ attempts busid (Heap.mk (h.news + 1) h.live).news rest,
            attempt_ok env rotation p = false :=
          fun p hp => hall p (List.mem_cons_of_mem _ hp)
        rw [start_loop_cons_fail env busid rotation rest h he hf,
          start_loop_of_all_fail env busid rotation rest ⟨h.news + 1, h.live⟩ hrest]
        simp [failed_scan_trace, ho', hs, List.filter_cons, he]
        omega
      · have hs' : in_scope busid b = false := by simpa using hs
        have he := eligible_of_out hs'
        rw [attempts_cons_not _ _ he] at hall
        rw [start_loop_cons_out env busid rotation rest h ho' hs',
          start_loop_of_all_fail env busid rotation rest h hall]
        simp [failed_scan_trace, ho', hs', List.filter_cons, he]

/-- A scan whose first successful attempt is on entry `b`, after the entries
`pre`, returns `PX4_OK` and records the new object in that entry only. -/
theorem start_loop_of_first_ok (env : Driver) (busid : BMM150_BUS) (rotation : Rotation)
    (b : bmm150_bus_option) (post : List bmm150_bus_option) :
    ∀ (pre : List bmm150_bus_option) (h : Heap),
      eligible busid b = true →
      (∀ p ∈ attempts busid h.news pre, attempt_ok env rotation p = false) →
      attempt_ok env rotation (h.news + (pre.filter (eligible busid)).length, b) = true →
      start_loop env busid rotation (pre ++ b :: post) h =
        { ret := PX4_OK,
          table := pre ++
            { b with dev := some ⟨h.news + (pre.filter (eligible busid)).length,
                                  b.busnum, rotation⟩ } :: post,
          heap := ⟨h.news + (pre.filter (eligible busid)).length + 1,
                   ⟨h.news + (pre.filter (eligible busid)).length, b.busnum, rotation⟩ ::
                     h.live⟩,
          trace := failed_scan_trace env busid rotation h.news pre ++
            ok_trace env rotation (h.news + (pre.filter (eligible busid)).length, b) }
  | [], h, he, _, hs => by
    simp only [List.filter_nil, List.length_nil, Nat.add_zero] at hs
    simpa [failed_scan_trace] using start_loop_cons_ok env busid rotation post h he hs
  | c :: pre, h, he, hall, hs => by
    by_cases ho : occupied c = true
    · have hec := eligible_of_occupied busid ho
      rw [attempts_cons_not _ _ hec] at hall
      simp only [List.filter_cons, hec] at hs
      rw [List.cons_append, start_loop_cons_occupied env busid rotation _ h ho,
        start_loop_of_first_ok env busid rotation b post pre h he hall (by simpa using hs)]
      simp [failed_scan_trace, ho, List.filter_cons, hec]
    · have ho' : occupied c = false := by simpa using ho
      by_cases hsc : in_scope busid c = true
      · have hec : eligible busid c = true := by simp [eligible, ho', hsc]
        rw [attempts_cons_eligible _ _ hec] at hall
        have hf := hall (h.news, c) (List.mem_cons_self _ _)
        have hrest : ∀ p ∈ attempts busid (Heap.mk (h.news + 1) h.live).news pre,
            attempt_ok env rotation p = false :=
          fun p hp => hall p (List.mem_cons_of_mem _ hp)
        have hn : h.news + ((c :: pre).filter (eligible busid)).length =
            (Heap.mk (h.news + 1) h.live).news + (pre.filter (eligible busid)).length := by
          simp [List.filter_cons, hec]
          omega
        rw [hn] at hs ⊢
        rw [List.cons_append, start_loop_cons_fail env busid rotation _ h hec hf,
          start_loop_of_first_ok env busid rotation b post pre ⟨h.news + 1, h.live⟩ he hrest hs]
        simp [failed_scan_trace, ho', hsc]
      · have hsc' : in_scope busid c = false := by simpa using hsc
        have hec := eligible_of_out hsc'
        rw [attempts_cons_not _ _ hec] at hall
        simp only [List.filter_cons, hec] at hs
        rw [List.cons_append, start_loop_cons_out env busid rotation _ h ho' hsc',
          start_loop_of_first_ok env busid rotation b post pre h he hall (by simpa using hs)]
        simp [failed_scan_trace, ho', hsc', List.filter_cons, hec]

/-- When some attempt of the scan would succeed, the table splits at the first
entry whose attempt succeeds. -/
theorem exists_first_ok (env : Driver) (busid : BMM150_BUS) (rotation : Rotation) :
    ∀ (l : List bmm150_bus_option) (n : Nat),
      (∃ p ∈ attempts busid n l, attempt_ok env rotation p = true) →
      ∃ pre b post, l = pre ++ b :: post ∧ eligible busid b = true ∧
        (∀ p ∈ attempts busid n pre, attempt_ok env rotation p = false) ∧
        attempt_ok env rotation (n + (pre.filter (eligible busid)).length, b) = true
  | [], n, h => by simp [attempts] at h
  | c :: l, n, h => by
    by_cases hec : eligible busid c = true
    · by_cases hc : attempt_ok env rotation (n, c) = true
      · exact ⟨[], c, l, rfl, hec, by simp [attempts], by simpa using hc⟩
      · have hc' : attempt_ok env rotation (n, c) = false := by simpa using hc
        rw [attempts_cons_eligible _ _ hec] at h
        obtain ⟨p, hp, hpk⟩ := h
        rcases List.mem_cons.1 hp with rfl | hp
        · rw [hc'] at hpk
          cases hpk
        · obtain ⟨pre, b, post, hl, he, hall, hs⟩ :=
            exists_first_ok env busid rotation l (n + 1) ⟨p, hp, hpk⟩
          refine ⟨c :: pre, b, post, by simp [hl], he, ?_, ?_⟩
          · intro q hq
            rw [attempts_cons_eligible _ _ hec] at hq
            rcases List.mem_cons.1 hq with rfl | hq
            · exact hc'
            · exact hall q hq
          · have hn : n + ((c :: pre).filter (eligible busid)).length =
                n + 1 + (pre.filter (eligible busid)).length := by
              simp [List.filter_cons, hec]
              omega
            rw [hn]
            exact hs
    · have hec' : eligible busid c = false := by simpa using hec
      rw [attempts_cons_not _ _ hec'] at h
      obtain ⟨pre, b, post, hl, he, hall, hs⟩ := exists_first_ok env busid rotation l n h
      refine ⟨c :: pre, b, post, by simp [hl], he, ?_, ?_⟩
      · rw [attempts_cons_not _ _ hec']
        exact hall
      · simpa [List.filter_cons, hec'] using hs

theorem mem_attempts_of_split (busid : BMM150_BUS) (n : Nat)
    (pre : List bmm150_bus_option) (b : bmm150_bus_option) (post : List bmm150_bus_option)
    (he : eligible busid b = true) :
    (n + (pre.filter (eligible busid)).length, b) ∈ attempts busid n (pre ++ b :: post) := by
  rw [attempts_append, attempts_cons_eligible _ _ he]
  simp

theorem calls_append (a b : List Event) : calls (a ++ b) = calls a ++ calls b := by
  simp [calls]

theorem warnings_append : ∀ (a b : List Event), warnings (a ++ b) = warnings a ++ warnings b
  | [], b => rfl
  | e :: a, b => by
    cases e <;> simp [warnings, warnings_append a b]

theorem calls_failed_trace (env : Driver) (rotation : Rotation)
    (p : Nat × bmm150_bus_option) :
    calls (failed_trace env rotation p) = failed_calls env rotation p := by
  unfold failed_trace failed_calls calls
  split <;> simp [is_call]

theorem warnings_failed_trace (env : Driver) (rotation : Rotation)
    (p : Nat × bmm150_bus_option) : warnings (failed_trace env rotation p) = [] := by
  unfold failed_trace
  split <;> simp [warnings]

theorem calls_ok_trace (env : Driver) (rotation : Rotation) (p : Nat × bmm150_bus_option) :
    calls (ok_trace env rotation p) = ok_trace env rotation p := by
  simp [ok_trace, calls, is_call]

theorem warnings_ok_trace (env : Driver) (rotation : Rotation)
    (p : Nat × bmm150_bus_option) : warnings (ok_trace env rotation p) = [] := by
  simp [ok_trace, warnings]

/-- The driver calls of a failed scan: those of its attempts, in order. -/
theorem calls_failed_scan_trace (env : Driver) (busid : BMM150_BUS) (rotation : Rotation) :
    ∀ (l : List bmm150_bus_option) (n : Nat),
      calls (failed_scan_trace env busid rotation n l) =
        (attempts busid n l).flatMap (failed_calls env rotation)
  | [], n => by simp [failed_scan_trace, attempts, calls]
  | b :: rest, n => by
    by_cases ho : occupied b = true
    · have he := eligible_of_occupied busid ho
      rw [attempts_cons_not _ _ he, ← calls_failed_scan_trace env busid rotation rest n]
      simp [failed_scan_trace, ho, calls, is_call]
    · have ho' : occupied b = false := by simpa using ho
      by_cases hs : in_scope busid b = true
      · have he : eligible busid b = true := by simp [eligible, ho', hs]
        rw [attempts_cons_eligible _ _ he, List.flatMap_cons,
          ← calls_failed_scan_trace env busid rotation rest (n + 1)]
        simp [failed_scan_trace, ho', hs, calls_append, calls_failed_trace]
      · have hs' : in_scope busid b = false := by simpa using hs
        have he := eligible_of_out hs'
        rw [attempts_cons_not _ _ he, ← calls_failed_scan_trace env busid rotation rest n]
        simp [failed_scan_trace, ho', hs']

/-- The warnings of a failed scan: one "already started" for each occupied entry. -/
theorem warnings_failed_scan_trace (env : Driver) (busid : BMM150_BUS) (rotation : Rotation) :
    ∀ (l : List bmm150_bus_option) (n : Nat),
      warnings (failed_scan_trace env busid rotation n l) =
        List.replicate (l.countP occupied) "already started"
  | [], n => by simp [failed_scan_trace, warnings]
  | b :: rest, n => by
    by_cases ho : occupied b = true
    · simp [failed_scan_trace, ho, warnings, List.replicate_succ,
        warnings_failed_scan_trace env busid rotation rest n]
    · have ho' : occupied b = false := by simpa using ho
      by_cases hs : in_scope busid b = true
      · simp [failed_scan_trace, ho', hs, warnings_append, warnings_failed_trace,
          warnings_failed_scan_trace env busid rotation rest (n + 1)]
      · have hs' : in_scope busid b = false := by simpa using hs
        simp [failed_scan_trace, ho', hs',
          warnings_failed_scan_trace env busid rotation rest n]

/-- The function `start` when every attempt fails. -/
theorem start_of_all_fail {env : Driver} {busid : BMM150_BUS} {rotation : Rotation}
    {w : World}
    (hall : ∀ p ∈ attempts busid w.heap.news w.bus_options, attempt_ok env rotation p = false) :
    start env busid rotation w =
      { ret := PX4_ERROR,
        world := ⟨w.bus_options,
          ⟨w.heap.news + (w.bus_options.filter (eligible busid)).length, w.heap.live⟩⟩,
        trace := failed_scan_trace env busid rotation w.heap.news w.bus_options } := by
  simp [start, start_loop_of_all_fail env busid rotation w.bus_options w.heap hall]

/-- The function `start` when the first successful attempt is on the entry `b`. -/
theorem start_of_first_ok {env : Driver} {busid : BMM150_BUS} {rotation : Rotation}
    {w : World} {pre post : List bmm150_bus_option} {b : bmm150_bus_option}
    (hl : w.bus_options = pre ++ b :: post) (he : eligible busid b = true)
    (hall : ∀ p ∈ attempts busid w.heap.news pre, attempt_ok env rotation p = false)
    (hs : attempt_ok env rotation
      (w.heap.news + (pre.filter (eligible busid)).length, b) = true) :
    start env busid rotation w =
      { ret := PX4_OK,
        world := ⟨pre ++
            { b with dev := some ⟨w.heap.news + (pre.filter (eligible busid)).length,
                                  b.busnum, rotation⟩ } :: post,
          ⟨w.heap.news + (pre.filter (eligible busid)).length + 1,
           ⟨w.heap.news + (pre.filter (eligible busid)).length, b.busnum, rotation⟩ ::
             w.heap.live⟩⟩,
        trace := failed_scan_trace env busid rotation w.heap.news pre ++
          ok_trace env rotation (w.heap.news + (pre.filter (eligible busid)).length, b) } := by
  simp [start, hl, start_loop_of_first_ok env busid rotation b post pre w.heap he hall hs]

/-- The two outcomes of `start`. -/
theorem start_cases (env : Driver) (busid : BMM150_BUS) (rotation : Rotation) (w : World) :
    ((∀ p ∈ attempts busid w.heap.news w.bus_options, attempt_ok env rotation p = false) ∧
      (start env busid rotation w).ret = PX4_ERROR) ∨
    ((∃ p ∈ attempts busid w.heap.news w.bus_options, attempt_ok env rotation p = true) ∧
      (start env busid rotation w).ret = PX4_OK) := by
  by_cases h : ∃ p ∈ attempts busid w.heap.news w.bus_options, attempt_ok env rotation p = true
  · right
    obtain ⟨pre, b, post, hl, he, hall, hs⟩ :=
      exists_first_ok env busid rotation w.bus_options w.heap.news h
    exact ⟨h, by rw [start_of_first_ok hl he hall hs]⟩
  · left
    have hall : ∀ p ∈ attempts busid w.heap.news w.bus_options,
        attempt_ok env rotation p = false := by
      intro p hp
      by_contra hne
      exact h ⟨p, hp, by simpa using hne⟩
    exact ⟨hall, by rw [start_of_all_fail hall]⟩

theorem attempts_map_snd (busid : BMM150_BUS) (n : Nat) (l : List bmm150_bus_option) :
    (attempts busid n l).map Prod.snd = l.filter (eligible busid) := by
  simp [attempts, List.enumFrom_map_snd]

theorem attempts_map_fst (busid : BMM150_BUS) (n : Nat) (l : List bmm150_bus_option) :
    (attempts busid n l).map Prod.fst = List.range' n (l.filter (eligible busid)).length := by
  simp [attempts, List.enumFrom_map_fst]

theorem mem_calls {e : Event} {tr : List Event} (h : e ∈ calls tr) : e ∈ tr :=
  List.mem_of_mem_filter h

theorem new_expr_mem_failed_calls (env : Driver) (rotation : Rotation)
    (p : Nat × bmm150_bus_option) :
    Event.new_expr p.1 p.2.busnum rotation (env.alloc p.1) ∈ failed_calls env rotation p := by
  unfold failed_calls
  by_cases ha : env.alloc p.1 = true
  · simp [ha]
  · simp [ha]

theorem attempts_eq_nil (busid : BMM150_BUS) {l : List bmm150_bus_option} (n : Nat)
    (h : ∀ b ∈ l, in_scope busid b = true → occupied b = true) : attempts busid n l = [] := by
  have hf : l.filter (eligible busid) = [] := by
    rw [List.filter_eq_nil_iff]
    intro b hb he
    simp only [eligible, Bool.and_eq_true, Bool.not_eq_true'] at he
    rw [h b hb he.2] at he
    exact absurd he.1 (by simp)
  simp [attempts, hf]

/-! ## The function `start` -/

/-- C1: `start(busid, rotation)` returns `PX4_OK` (= 0) exactly when some unoccupied
in-scope entry has an attempt that succeeds, an attempt being the `new` expression
with the ordinal it gets when every earlier attempt of the scan fails, followed by
`init()`. On success the table splits as `pre ++ b :: post` where `b` is the first
such entry: `b` alone changes, it receives the object built from `b.busnum` and the
rotation, every unoccupied in-scope entry of `pre` was attempted (its `new`
expression is in the trace), failed, had its object deleted and is unchanged.
When no such entry exists `start` returns `PX4_ERROR`, which is non-zero. -/
theorem start_ok_iff_first_attempt (env : Driver) (busid : BMM150_BUS)
    (rotation : Rotation) (w : World) :
    ((start env busid rotation w).ret = PX4_OK ↔
        ∃ p ∈ attempts busid w.heap.news w.bus_options, attempt_ok env rotation p = true) ∧
    PX4_OK = 0 ∧
    (attempts busid w.heap.news w.bus_options).map Prod.snd =
        w.bus_options.filter (fun b => !occupied b && in_scope busid b) ∧
    ((start env busid rotation w).ret = PX4_OK →
        ∃ pre b post k,
          w.bus_options = pre ++ b :: post ∧
          b.dev = none ∧ in_scope busid b = true ∧
          k = w.heap.news + (pre.filter (eligible busid)).length ∧
          attempt_ok env rotation (k, b) = true ∧
          (∀ p ∈ attempts busid w.heap.news pre,
            attempt_ok env rotation p = false ∧
            Event.new_expr p.1 p.2.busnum rotation (env.alloc p.1) ∈
              (start env busid rotation w).trace) ∧
          (start env busid rotation w).world.bus_options =
            pre ++ { b with dev := some ⟨k, b.busnum, rotation⟩ } :: post ∧
          (∀ j, j < pre.length →
            (start env busid rotation w).world.bus_options[j]? = w.bus_options[j]?) ∧
          (start env busid rotation w).world.heap.live =
            ⟨k, b.busnum, rotation⟩ :: w.heap.live ∧
          calls (start env busid rotation w).trace =
            (attempts busid w.heap.news pre).flatMap (failed_calls env rotation) ++
              [Event.new_expr k b.busnum rotation true,
               Event.init ⟨k, b.busnum, rotation⟩ PX4_OK]) ∧
    ((¬ ∃ p ∈ attempts busid w.heap.news w.bus_options, attempt_ok env rotation p = true) →
        (start env busid rotation w).ret = PX4_ERROR ∧
        (start env busid rotation w).ret ≠ 0) := by
  have hiff : (start env busid rotation w).ret = PX4_OK ↔
      ∃ p ∈ attempts busid w.heap.news w.bus_options, attempt_ok env rotation p = true := by
    rcases start_cases env busid rotation w with ⟨hall, hr⟩ | ⟨hex, hr⟩
    · constructor
      · intro h
        rw [hr] at h
        exact absurd h PX4_ERROR_ne_OK
      · rintro ⟨p, hp, hpk⟩
        rw [hall p hp] at hpk
        cases hpk
    · exact ⟨fun _ => hex, fun _ => hr⟩
  refine ⟨hiff, rfl, ?_, ?_, ?_⟩
  · rw [attempts_map_snd]
    rfl
  · intro hok
    obtain ⟨pre, b, post, hl, he, hall, hs⟩ :=
      exists_first_ok env busid rotation w.bus_options w.heap.news (hiff.1 hok)
    have hst := start_of_first_ok hl he hall hs
    have hinit : env.init ⟨w.heap.news + (pre.filter (eligible busid)).length,
        b.busnum, rotation⟩ = PX4_OK := by
      simp only [attempt_ok, Bool.and_eq_true, decide_eq_true_eq] at hs
      exact hs.2
    have hcalls : calls (start env busid rotation w).trace =
        (attempts busid w.heap.news pre).flatMap (failed_calls env rotation) ++
          [Event.new_expr (w.heap.news + (pre.filter (eligible busid)).length)
             b.busnum rotation true,
           Event.init ⟨w.heap.news + (pre.filter (eligible busid)).length,
             b.busnum, rotation⟩ PX4_OK] := by
      rw [hst]
      rw [calls_append, calls_failed_scan_trace, calls_ok_trace]
      simp only [ok_trace, hinit]
    have hed := (eligible_iff busid b).1 he
    have hsc : in_scope busid b = true := by
      simpa [eligible, occupied, hed.1] using he
    refine ⟨pre, b, post, _, hl, hed.1, hsc, rfl, hs, ?_, ?_, ?_, ?_, hcalls⟩
    · intro p hp
      refine ⟨hall p hp, mem_calls ?_⟩
      rw [hcalls]
      refine List.mem_append_left _ (List.mem_flatMap.2 ⟨p, hp, ?_⟩)
      exact new_expr_mem_failed_calls env rotation p
    · rw [hst]
    · intro j hj
      rw [hst, hl]
      simp [List.getElem?_append_left, hj]
    · rw [hst]
  · intro hno
    rcases start_cases env busid rotation w with ⟨-, hr⟩ | ⟨hex, -⟩
    · exact ⟨hr, by rw [hr]; exact PX4_ERROR_ne_zero⟩
    · exact absurd hex hno

/-- C8 as stated fails: `init()` fails for every instance and both entries of the
two-entry table are unoccupied and in the scope of ALL, yet when `new` yields
`nullptr` the scan of `start(ALL)` constructs, initialises and destroys no instance:
its events are the two failed `new` expressions and the two error messages. -/
theorem start_no_object_counterexample :
    (∀ d, driver_no_memory.init d = PX4_ERROR) ∧
    (two_entry_table.filter
      (fun b => !occupied b && in_scope BMM150_BUS.ALL b)).length = 2 ∧
    (start driver_no_memory BMM150_BUS.ALL 0 ⟨two_entry_table, ⟨0, []⟩⟩).trace =
      [Event.new_expr 0 1 0 false, Event.err "driver start failed",
       Event.new_expr 1 2 0 false, Event.err "driver start failed"] :=
  ⟨fun _ => rfl, by decide, by decide⟩

/-- C8, amended: when `init()` fails for every instance, `start(busid, rotation)`
evaluates exactly one `new` expression for each unoccupied in-scope entry, once each
and in declaration order, calls `init()` once on each object obtained and deletes
it, returns `PX4_ERROR` and leaves the table and the live objects as they were; when
moreover every `new` yields an object, each such entry gets exactly one instance,
constructed, initialised and deleted. On the two-entry table `start(ALL)` attempts
bus 1 then bus 2 and ends with no occupied entry. -/
theorem start_all_init_fail (env : Driver) (busid : BMM150_BUS) (rotation : Rotation)
    (w : World) (hinit : ∀ d, env.init d ≠ PX4_OK) :
    (start env busid rotation w).ret = PX4_ERROR ∧
    (start env busid rotation w).ret ≠ 0 ∧
    (start env busid rotation w).world.bus_options = w.bus_options ∧
    (start env busid rotation w).world.heap.live = w.heap.live ∧
    calls (start env busid rotation w).trace =
      (attempts busid w.heap.news w.bus_options).flatMap (failed_calls env rotation) ∧
    (attempts busid w.heap.news w.bus_options).map Prod.snd =
      w.bus_options.filter (fun b => !occupied b && in_scope busid b) ∧
    (attempts busid w.heap.news w.bus_options).map Prod.fst =
      List.range' w.heap.news
        (w.bus_options.filter (fun b => !occupied b && in_scope busid b)).length ∧
    ((∀ k, env.alloc k = true) →
      calls (start env busid rotation w).trace =
        (attempts busid w.heap.news w.bus_options).flatMap (fun p =>
          [Event.new_expr p.1 p.2.busnum rotation true,
           Event.init ⟨p.1, p.2.busnum, rotation⟩ (env.init ⟨p.1, p.2.busnum, rotation⟩),
           Event.delete ⟨p.1, p.2.busnum, rotation⟩])) ∧
    (∀ h : Heap,
      (start env BMM150_BUS.ALL rotation ⟨two_entry_table, h⟩).ret = PX4_ERROR ∧
      (start env BMM150_BUS.ALL rotation ⟨two_entry_table, h⟩).world.bus_options =
        two_entry_table ∧
      (start env BMM150_BUS.ALL rotation ⟨two_entry_table, h⟩).world.bus_options.countP
        occupied = 0 ∧
      (start env BMM150_BUS.ALL rotation ⟨two_entry_table, h⟩).world.heap.live = h.live ∧
      calls (start env BMM150_BUS.ALL rotation ⟨two_entry_table, h⟩).trace =
        failed_calls env rotation (h.news, ⟨BMM150_BUS.I2C_INTERNAL, 1, 0x10, none⟩) ++
          failed_calls env rotation (h.news + 1, ⟨BMM150_BUS.I2C_EXTERNAL, 2, 0x12, none⟩)) := by
  have hfail : ∀ (sel : BMM150_BUS) (v : World),
      ∀ p ∈ attempts sel v.heap.news v.bus_options, attempt_ok env rotation p = false := by
    intro sel v p _
    simp [attempt_ok, hinit]
  have hst := start_of_all_fail (hfail busid w)
  have hcalls : calls (start env busid rotation w).trace =
      (attempts busid w.heap.news w.bus_options).flatMap (failed_calls env rotation) := by
    rw [hst]
    exact calls_failed_scan_trace env busid rotation w.bus_options w.heap.news
  refine ⟨by rw [hst], by rw [hst]; exact PX4_ERROR_ne_zero, by rw [hst], by rw [hst],
    hcalls, ?_, ?_, ?_, ?_⟩
  · rw [attempts_map_snd]
    rfl
  · rw [attempts_map_fst]
    rfl
  · intro halloc
    rw [hcalls]
    congr 1
    funext p
    simp [failed_calls, halloc]
  · intro h
    have h2 := start_of_all_fail (hfail BMM150_BUS.ALL ⟨two_entry_table, h⟩)
    rw [h2]
    refine ⟨rfl, rfl, by simp [two_entry_table, occupied], rfl, ?_⟩
    rw [calls_failed_scan_trace]
    simp [attempts, two_entry_table, eligible, occupied, in_scope, List.enumFrom]

/-- Witness for C8: the two-entry table with the always-failing driver. -/
theorem start_all_init_fail_witness :
    (∀ d, driver_failing.init d ≠ PX4_OK) ∧
    (start driver_failing BMM150_BUS.ALL 0 ⟨two_entry_table, ⟨0, []⟩⟩).ret = PX4_ERROR ∧
    calls (start driver_failing BMM150_BUS.ALL 0 ⟨two_entry_table, ⟨0, []⟩⟩).trace =
      [Event.new_expr 0 1 0 true, Event.init ⟨0, 1, 0⟩ PX4_ERROR, Event.delete ⟨0, 1, 0⟩,
       Event.new_expr 1 2 0 true, Event.init ⟨1, 2, 0⟩ PX4_ERROR, Event.delete ⟨1, 2, 0⟩] :=
  ⟨fun _ => PX4_ERROR_ne_OK,
   (start_all_init_fail driver_failing BMM150_BUS.ALL 0 ⟨two_entry_table, ⟨0, []⟩⟩
      (fun _ => PX4_ERROR_ne_OK)).1,
   by decide⟩

/-- C10: when every entry in the scope of the selector is occupied, and there is
one, `start(busid, rotation)` returns `PX4_ERROR`, emits the "already started"
warning (once for each occupied entry of the table), evaluates no `new` expression
and makes no driver call for any entry, and leaves the table and the free store
unchanged. -/
theorem start_fully_occupied (env : Driver) (busid : BMM150_BUS) (rotation : Rotation)
    (w : World)
    (hall : ∀ b ∈ w.bus_options, in_scope busid b = true → occupied b = true)
    (hex : ∃ b ∈ w.bus_options, in_scope busid b = true) :
    (start env busid rotation w).ret = PX4_ERROR ∧
    (start env busid rotation w).ret ≠ 0 ∧
    "already started" ∈ warnings (start env busid rotation w).trace ∧
    warnings (start env busid rotation w).trace =
      List.replicate (w.bus_options.countP occupied) "already started" ∧
    calls (start env busid rotation w).trace = [] ∧
    (∀ k n r ok, Event.new_expr k n r ok ∉ (start env busid rotation w).trace) ∧
    (∀ d r, Event.init d r ∉ (start env busid rotation w).trace) ∧
    (start env busid rotation w).world = w := by
  have hnil := attempts_eq_nil busid w.heap.news hall
  have hfail : ∀ p ∈ attempts busid w.heap.news w.bus_options,
      attempt_ok env rotation p = false := by
    intro p hp
    rw [hnil] at hp
    cases hp
  have hst := start_of_all_fail hfail
  have hcalls : calls (start env busid rotation w).trace = [] := by
    rw [hst]
    show calls (failed_scan_trace env busid rotation w.heap.news w.bus_options) = []
    rw [calls_failed_scan_trace, hnil]
    rfl
  have hwarn : warnings (start env busid rotation w).trace =
      List.replicate (w.bus_options.countP occupied) "already started" := by
    rw [hst]
    exact warnings_failed_scan_trace env busid rotation w.bus_options w.heap.news
  have hno : ∀ e, is_call e = true → e ∉ (start env busid rotation w).trace := by
    intro e he hmem
    have : e ∈ calls (start env busid rotation w).trace := List.mem_filter.2 ⟨hmem, he⟩
    rw [hcalls] at this
    cases this
  have hlen : (w.bus_options.filter (eligible busid)).length = 0 := by
    have := attempts_length busid w.heap.news w.bus_options
    rw [hnil] at this
    exact this.symm
  refine ⟨by rw [hst], by rw [hst]; exact PX4_ERROR_ne_zero, ?_, hwarn, hcalls,
    fun k n r ok => hno _ rfl, fun d r => hno _ rfl, ?_⟩
  · rw [hwarn]
    obtain ⟨b, hb, hs⟩ := hex
    have hpos : 0 < w.bus_options.countP occupied :=
      List.countP_pos_iff.2 ⟨b, hb, hall b hb hs⟩
    exact List.mem_replicate.2 ⟨Nat.pos_iff_ne_zero.1 hpos, rfl⟩
  · rw [hst, hlen]
    rfl

/-- Witness for C10: the external entry is occupied and the selector is EXTERNAL. -/
theorem start_fully_occupied_witness :
    (∀ b ∈ [(⟨BMM150_BUS.I2C_INTERNAL, 1, 0x10, none⟩ : bmm150_bus_option),
            ⟨BMM150_BUS.I2C_EXTERNAL, 2, 0x12, some ⟨0, 2, 0⟩⟩],
        in_scope BMM150_BUS.I2C_EXTERNAL b = true → occupied b = true) ∧
    (start driver_ok BMM150_BUS.I2C_EXTERNAL 0
        ⟨[⟨BMM150_BUS.I2C_INTERNAL, 1, 0x10, none⟩,
          ⟨BMM150_BUS.I2C_EXTERNAL, 2, 0x12, some ⟨0, 2, 0⟩⟩], ⟨1, [⟨0, 2, 0⟩]⟩⟩).ret =
      PX4_ERROR :=
  ⟨by decide,
   (start_fully_occupied driver_ok BMM150_BUS.I2C_EXTERNAL 0
      ⟨[⟨BMM150_BUS.I2C_INTERNAL, 1, 0x10, none⟩,
        ⟨BMM150_BUS.I2C_EXTERNAL, 2, 0x12, some ⟨0, 2, 0⟩⟩], ⟨1, [⟨0, 2, 0⟩]⟩⟩
      (by decide) (by decide)).1⟩

/-! ## Sequences of calls -/

theorem set_length_append (x y : bmm150_bus_option) (post : List bmm150_bus_option) :
    ∀ pre : List bmm150_bus_option,
      (pre ++ x :: post).set pre.length y = pre ++ y :: post
  | [] => rfl
  | c :: pre => by simp [set_length_append x y post pre]

theorem getElem?_length_append (x : bmm150_bus_option) (post : List bmm150_bus_option) :
    ∀ pre : List bmm150_bus_option, (pre ++ x :: post)[pre.length]? = some x
  | [] => by simp
  | c :: pre => by simpa using getElem?_length_append x post pre

theorem getElem?_append_of_lt (l₂ : List bmm150_bus_option)
    (pre : List bmm150_bus_option) (j : Nat) (h : j < pre.length) :
    (pre ++ l₂)[j]? = pre[j]? :=
  List.getElem?_append_left h

/-- After a successful `start` the claimed entry is occupied and in scope. -/
theorem start_ok_split {env : Driver} {busid : BMM150_BUS} {rotation : Rotation} {w : World}
    (h : (start env busid rotation w).ret = PX4_OK) :
    ∃ pre b post d, w.bus_options = pre ++ b :: post ∧ eligible busid b = true ∧
      d = (⟨w.heap.news + (pre.filter (eligible busid)).length, b.busnum, rotation⟩ : BMM150) ∧
      (start env busid rotation w).world.bus_options =
        pre ++ { b with dev := some d } :: post ∧
      (start env busid rotation w).world.heap =
        ⟨w.heap.news + (pre.filter (eligible busid)).length + 1, d :: w.heap.live⟩ := by
  rcases start_cases env busid rotation w with ⟨-, hr⟩ | ⟨hex, -⟩
  · rw [hr] at h
    exact absurd h PX4_ERROR_ne_OK
  · obtain ⟨pre, b, post, hl, he, hall, hs⟩ :=
      exists_first_ok env busid rotation w.bus_options w.heap.news hex
    refine ⟨pre, b, post, _, hl, he, rfl, ?_, ?_⟩ <;> rw [start_of_first_ok hl he hall hs]

theorem running_claimed {busid : BMM150_BUS} {b : bmm150_bus_option} (d : BMM150)
    (he : eligible busid b = true) : running busid { b with dev := some d } = true := by
  simp only [eligible, Bool.and_eq_true] at he
  simpa [running, occupied, in_scope] using he.2

/-- C6 as stated fails: on the two-entry table with a driver that always
initialises, `start(ALL)` succeeds and the immediately following `start(ALL)`
succeeds again, claims the external entry and leaves a second live instance. -/
theorem second_start_succeeds_counterexample :
    ¬ ((start driver_ok BMM150_BUS.ALL 0 ⟨two_entry_table, ⟨0, []⟩⟩).ret = 0 →
        ((start driver_ok BMM150_BUS.ALL 0
            (start driver_ok BMM150_BUS.ALL 0 ⟨two_entry_table, ⟨0, []⟩⟩).world).ret ≠ 0 ∧
         (start driver_ok BMM150_BUS.ALL 0
            (start driver_ok BMM150_BUS.ALL 0 ⟨two_entry_table, ⟨0, []⟩⟩).world).world.heap.live =
           (start driver_ok BMM150_BUS.ALL 0 ⟨two_entry_table, ⟨0, []⟩⟩).world.heap.live ∧
         (start driver_ok BMM150_BUS.ALL 0
            (start driver_ok BMM150_BUS.ALL 0
              ⟨two_entry_table, ⟨0, []⟩⟩).world).world.bus_options =
           (start driver_ok BMM150_BUS.ALL 0 ⟨two_entry_table, ⟨0, []⟩⟩).world.bus_options)) := by
  decide

/-- C6, amended: after a successful `start(busid, rotation)`, an immediately
following `start(busid, rotation)` returns failure exactly when no unoccupied
in-scope entry of the resulting table has an attempt that succeeds; it then emits
the "already started" warning, leaves the table and the live objects as the first
`start` left them, and when every in-scope entry is occupied it makes no driver call
at all. -/
theorem second_start_fails_iff (env : Driver) (busid : BMM150_BUS) (rotation : Rotation)
    (w : World) (h : (start env busid rotation w).ret = PX4_OK) :
    ((start env busid rotation (start env busid rotation w).world).ret ≠ 0 ↔
      ∀ p ∈ attempts busid (start env busid rotation w).world.heap.news
          (start env busid rotation w).world.bus_options,
        attempt_ok env rotation p = false) ∧
    ((∀ p ∈ attempts busid (start env busid rotation w).world.heap.news
          (start env busid rotation w).world.bus_options,
        attempt_ok env rotation p = false) →
      (start env busid rotation (start env busid rotation w).world).ret = PX4_ERROR ∧
      (start env busid rotation (start env busid rotation w).world).world.bus_options =
        (start env busid rotation w).world.bus_options ∧
      (start env busid rotation (start env busid rotation w).world).world.heap.live =
        (start env busid rotation w).world.heap.live ∧
      "already started" ∈
        warnings (start env busid rotation (start env busid rotation w).world).trace) ∧
    ((∀ b ∈ (start env busid rotation w).world.bus_options,
        in_scope busid b = true → occupied b = true) →
      (start env busid rotation (start env busid rotation w).world).ret = PX4_ERROR ∧
      (start env busid rotation (start env busid rotation w).world).world =
        (start env busid rotation w).world ∧
      calls (start env busid rotation (start env busid rotation w).world).trace = []) := by
  obtain ⟨pre, b, post, d, hl, he, hd, ht, hh⟩ := start_ok_split h
  generalize (start env busid rotation w).world = w1 at ht hh ⊢
  have hfail : (∀ p ∈ attempts busid w1.heap.news w1.bus_options,
      attempt_ok env rotation p = false) →
      (start env busid rotation w1).ret = PX4_ERROR ∧
      (start env busid rotation w1).world.bus_options = w1.bus_options ∧
      (start env busid rotation w1).world.heap.live = w1.heap.live ∧
      "already started" ∈ warnings (start env busid rotation w1).trace := by
    intro hall
    rw [start_of_all_fail hall]
    refine ⟨rfl, rfl, rfl, ?_⟩
    show "already started" ∈
      warnings (failed_scan_trace env busid rotation w1.heap.news w1.bus_options)
    rw [warnings_failed_scan_trace]
    have hpos : 0 < w1.bus_options.countP occupied :=
      List.countP_pos_iff.2 ⟨{ b with dev := some d }, by rw [ht]; simp, rfl⟩
    exact List.mem_replicate.2 ⟨Nat.pos_iff_ne_zero.1 hpos, rfl⟩
  refine ⟨?_, hfail, ?_⟩
  · rcases start_cases env busid rotation w1 with ⟨hall, hr⟩ | ⟨⟨p, hp, hpk⟩, hr⟩
    · exact ⟨fun _ => hall, fun _ => by rw [hr]; exact PX4_ERROR_ne_zero⟩
    · constructor
      · intro hne
        rw [hr] at hne
        exact absurd rfl hne
      · intro hall
        rw [hall p hp] at hpk
        cases hpk
  · intro hocc
    have hnil := attempts_eq_nil busid w1.heap.news hocc
    have hall : ∀ p ∈ attempts busid w1.heap.news w1.bus_options,
        attempt_ok env rotation p = false := by
      intro p hp
      rw [hnil] at hp
      cases hp
    have hlen : (w1.bus_options.filter (eligible busid)).length = 0 := by
      have := attempts_length busid w1.heap.news w1.bus_options
      rw [hnil] at this
      exact this.symm
    rw [start_of_all_fail hall, hlen]
    refine ⟨rfl, rfl, ?_⟩
    show calls (failed_scan_trace env busid rotation w1.heap.news w1.bus_options) = []
    rw [calls_failed_scan_trace, hnil]
    rfl

/-- Witness for the amended C6: the two-entry table with the INTERNAL selector. -/
theorem second_start_fails_iff_witness :
    (start driver_ok BMM150_BUS.I2C_INTERNAL 0 ⟨two_entry_table, ⟨0, []⟩⟩).ret = PX4_OK ∧
    (start driver_ok BMM150_BUS.I2C_INTERNAL 0
      (start driver_ok BMM150_BUS.I2C_INTERNAL 0 ⟨two_entry_table, ⟨0, []⟩⟩).world).ret =
        PX4_ERROR :=
  ⟨by decide,
   ((second_start_fails_iff driver_ok BMM150_BUS.I2C_INTERNAL 0 ⟨two_entry_table, ⟨0, []⟩⟩
      (by decide)).2.2 (by decide)).1⟩

/-- The table reached from the two-entry table by `start(INTERNAL)` with a driver
that always initialises: the internal entry is occupied. -/
theorem start_internal_world :
    (start driver_ok BMM150_BUS.I2C_INTERNAL 0 ⟨two_entry_table, ⟨0, []⟩⟩).world =
      ⟨[⟨BMM150_BUS.I2C_INTERNAL, 1, 0x10, some ⟨0, 1, 0⟩⟩,
        ⟨BMM150_BUS.I2C_EXTERNAL, 2, 0x12, none⟩], ⟨1, [⟨0, 1, 0⟩]⟩⟩ := by
  decide

/-- C7 as stated fails: in the state reached by `start(INTERNAL)` on the two-entry
table, `start(ALL)` succeeds and claims the external entry (index 1); the
immediately following `stop(ALL)` succeeds but clears the internal entry, and the
external entry is still occupied afterwards. -/
theorem stop_after_start_counterexample :
    (start driver_ok BMM150_BUS.ALL 0
      ⟨[⟨BMM150_BUS.I2C_INTERNAL, 1, 0x10, some ⟨0, 1, 0⟩⟩,
        ⟨BMM150_BUS.I2C_EXTERNAL, 2, 0x12, none⟩], ⟨1, [⟨0, 1, 0⟩]⟩⟩).ret = 0 ∧
    (start driver_ok BMM150_BUS.ALL 0
      ⟨[⟨BMM150_BUS.I2C_INTERNAL, 1, 0x10, some ⟨0, 1, 0⟩⟩,
        ⟨BMM150_BUS.I2C_EXTERNAL, 2, 0x12, none⟩], ⟨1, [⟨0, 1, 0⟩]⟩⟩).world.bus_options =
      [⟨BMM150_BUS.I2C_INTERNAL, 1, 0x10, some ⟨0, 1, 0⟩⟩,
       ⟨BMM150_BUS.I2C_EXTERNAL, 2, 0x12, some ⟨1, 2, 0⟩⟩] ∧
    (stop BMM150_BUS.ALL (start driver_ok BMM150_BUS.ALL 0
      ⟨[⟨BMM150_BUS.I2C_INTERNAL, 1, 0x10, some ⟨0, 1, 0⟩⟩,
        ⟨BMM150_BUS.I2C_EXTERNAL, 2, 0x12, none⟩], ⟨1, [⟨0, 1, 0⟩]⟩⟩).world).ret = 0 ∧
    (stop BMM150_BUS.ALL (start driver_ok BMM150_BUS.ALL 0
      ⟨[⟨BMM150_BUS.I2C_INTERNAL, 1, 0x10, some ⟨0, 1, 0⟩⟩,
        ⟨BMM150_BUS.I2C_EXTERNAL, 2, 0x12, none⟩],
       ⟨1, [⟨0, 1, 0⟩]⟩⟩).world).world.bus_options =
      [⟨BMM150_BUS.I2C_INTERNAL, 1, 0x10, none⟩,
       ⟨BMM150_BUS.I2C_EXTERNAL, 2, 0x12, some ⟨1, 2, 0⟩⟩] := by
  decide

/-- C7, amended: when `start(busid, rotation)` returns success, claiming the entry
`b` at index `pre.length`, the immediately following `stop(busid)` returns success;
it clears the first occupied in-scope entry of the table `start` left and deletes
its device; the claimed entry is unoccupied afterwards (and the table is the one
before `start`) when no entry before it is occupied and in scope, otherwise `stop`
clears an earlier entry and the claimed entry is still occupied. -/
theorem stop_after_start (env : Driver) (busid : BMM150_BUS) (rotation : Rotation)
    (w : World) (h : (start env busid rotation w).ret = PX4_OK) :
    (stop busid (start env busid rotation w).world).ret = PX4_OK ∧
    (stop busid (start env busid rotation w).world).ret = 0 ∧
    (∃ (i : Nat) (bi : bmm150_bus_option) (di : BMM150),
      find_bus busid (start env busid rotation w).world = some i ∧
      (start env busid rotation w).world.bus_options[i]? = some bi ∧
      bi.dev = some di ∧ in_scope busid bi = true ∧
      (∀ j, j < i → ∀ bj, (start env busid rotation w).world.bus_options[j]? = some bj →
        ¬ (occupied bj = true ∧ in_scope busid bj = true)) ∧
      (stop busid (start env busid rotation w).world).world.bus_options =
        (start env busid rotation w).world.bus_options.set i { bi with dev := none } ∧
      (stop busid (start env busid rotation w).world).trace = [Event.delete di]) ∧
    ∃ pre b post d,
      w.bus_options = pre ++ b :: post ∧ b.dev = none ∧ in_scope busid b = true ∧
      (start env busid rotation w).world.bus_options =
        pre ++ { b with dev := some d } :: post ∧
      ((∀ c ∈ pre, ¬ (occupied c = true ∧ in_scope busid c = true)) →
        (stop busid (start env busid rotation w).world).world.bus_options[pre.length]? =
          some b ∧
        (stop busid (start env busid rotation w).world).world.bus_options =
          w.bus_options) ∧
      ((∃ c ∈ pre, occupied c = true ∧ in_scope busid c = true) →
        (stop busid (start env busid rotation w).world).world.bus_options[pre.length]? =
          some { b with dev := some d }) := by
  obtain ⟨pre, b, post, d, hl, he, -, ht, -⟩ := start_ok_split h
  generalize (start env busid rotation w).world = w1 at ht ⊢
  have hrun := running_claimed d he
  have hed := (eligible_iff busid b).1 he
  have hsc : in_scope busid b = true := by
    simpa [eligible, occupied, hed.1] using he
  have hat : w1.bus_options[pre.length]? = some { b with dev := some d } := by
    rw [ht]
    exact getElem?_length_append _ post pre
  have hsome : ∃ i, find_bus busid w1 = some i := by
    cases hf : find_bus busid w1 with
    | some i => exact ⟨i, rfl⟩
    | none =>
      have hn := (find_bus_in_eq_none_iff busid w1.bus_options).1 hf
        { b with dev := some d } (mem_of_getElem?_eq_some hat)
      rw [hrun] at hn
      cases hn
  obtain ⟨i, hi⟩ := hsome
  obtain ⟨bi, di, hbi, hdi, hsi, hlt⟩ := find_bus_some_entry hi
  have hstop := stop_of_found hi hbi hdi
  refine ⟨by rw [hstop], by rw [hstop]; rfl,
    ⟨i, bi, di, hi, hbi, hdi, hsi,
      fun j hj bj hbj => (running_false_iff busid bj).1 (hlt j hj bj hbj),
      by rw [hstop], by rw [hstop]⟩,
    pre, b, post, d, hl, hed.1, hsc, ht, ?_, ?_⟩
  · intro hpre
    have hfirst : find_bus busid w1 = some pre.length := by
      refine (find_bus_in_eq_some_iff busid w1.bus_options pre.length).2
        ⟨⟨_, hat, hrun⟩, ?_⟩
      intro j hj bj hbj
      rw [ht, getElem?_append_of_lt _ pre j hj] at hbj
      exact (running_false_iff busid bj).2 (hpre bj (mem_of_getElem?_eq_some hbj))
    have hb' : ({ ({ b with dev := some d } : bmm150_bus_option) with dev := none } :
        bmm150_bus_option) = b := by
      cases b
      simp only [bmm150_bus_option.mk.injEq, true_and]
      exact hed.1.symm
    have hdev : ({ b with dev := some d } : bmm150_bus_option).dev = some d := rfl
    rw [stop_of_found hfirst hat hdev, hb']
    have hset : w1.bus_options.set pre.length b = w.bus_options := by
      rw [ht, hl]
      exact set_length_append _ b post pre
    refine ⟨?_, hset⟩
    show (w1.bus_options.set pre.length b)[pre.length]? = some b
    rw [hset, hl]
    exact getElem?_length_append b post pre
  · rintro ⟨c, hc, hoc, hsc'⟩
    have hcr : running busid c = true := (running_true_iff busid c).2 ⟨hoc, hsc'⟩
    obtain ⟨jc, hjc, hcj⟩ := List.getElem_of_mem hc
    have hcj' : w1.bus_options[jc]? = some c := by
      rw [ht, getElem?_append_of_lt _ pre jc hjc]
      exact List.getElem?_eq_some_iff.2 ⟨hjc, hcj⟩
    have hile : i ≤ jc := by
      by_contra hgt
      have := hlt jc (Nat.lt_of_not_le hgt) c hcj'
      rw [hcr] at this
      cases this
    have hne : i ≠ pre.length := by omega
    rw [hstop]
    show (w1.bus_options.set i { bi with dev := none })[pre.length]? = _
    rw [List.getElem?_set_ne hne]
    exact hat

/-- Witness for the amended C7: `start(ALL)` then `stop(ALL)` on the two-entry
table. -/
theorem stop_after_start_witness :
    (start driver_ok BMM150_BUS.ALL 0 ⟨two_entry_table, ⟨0, []⟩⟩).ret = PX4_OK ∧
    (stop BMM150_BUS.ALL
      (start driver_ok BMM150_BUS.ALL 0 ⟨two_entry_table, ⟨0, []⟩⟩).world).ret = PX4_OK :=
  ⟨by decide,
   (stop_after_start driver_ok BMM150_BUS.ALL 0 ⟨two_entry_table, ⟨0, []⟩⟩ (by decide)).1⟩

/-- C9: on the two-entry table, both entries unoccupied, with the driver's `new`
and `init()` succeeding, the sequence `start(ALL)`, `status(ALL)`, `stop(EXTERNAL)`,
`stop(INTERNAL)`, `status(ALL)` returns success, success, failure, success,
failure; `start(ALL)` occupies exactly the internal entry, `status(ALL)` reports
that device, `stop(EXTERNAL)` changes nothing, and after `stop(INTERNAL)` no entry
is occupied and the device is deleted. -/
theorem two_entry_scenario (env : Driver) (rotation : Rotation) (h : Heap)
    (halloc : env.alloc h.news = true) (hinit : env.init ⟨h.news, 1, rotation⟩ = PX4_OK) :
    ∃ r1 r2 r3 r4 r5 : Result,
      r1 = start env BMM150_BUS.ALL rotation ⟨two_entry_table, h⟩ ∧
      r2 = status BMM150_BUS.ALL r1.world ∧
      r3 = stop BMM150_BUS.I2C_EXTERNAL r2.world ∧
      r4 = stop BMM150_BUS.I2C_INTERNAL r3.world ∧
      r5 = status BMM150_BUS.ALL r4.world ∧
      r1.ret = 0 ∧ r2.ret = 0 ∧ r3.ret ≠ 0 ∧ r4.ret = 0 ∧ r5.ret ≠ 0 ∧
      r1.world.bus_options =
        [⟨BMM150_BUS.I2C_INTERNAL, 1, 0x10, some ⟨h.news, 1, rotation⟩⟩,
         ⟨BMM150_BUS.I2C_EXTERNAL, 2, 0x12, none⟩] ∧
      r1.world.heap.live = ⟨h.news, 1, rotation⟩ :: h.live ∧
      r2.trace = [Event.print_info ⟨h.news, 1, rotation⟩] ∧
      r2.world = r1.world ∧
      r3.world = r1.world ∧
      r4.trace = [Event.delete ⟨h.news, 1, rotation⟩] ∧
      r4.world.bus_options = two_entry_table ∧
      r4.world.bus_options.countP occupied = 0 ∧
      r5.world = r4.world := by
  have hs : attempt_ok env rotation
      (h.news + (([] : List bmm150_bus_option).filter (eligible BMM150_BUS.ALL)).length,
        (⟨BMM150_BUS.I2C_INTERNAL, 1, 0x10, none⟩ : bmm150_bus_option)) = true := by
    simp [attempt_ok, halloc, hinit]
  have hst := @start_of_first_ok env BMM150_BUS.ALL rotation ⟨two_entry_table, h⟩ []
    [⟨BMM150_BUS.I2C_EXTERNAL, 2, 0x12, none⟩] ⟨BMM150_BUS.I2C_INTERNAL, 1, 0x10, none⟩
    rfl (by decide) (by simp [attempts]) hs
  refine ⟨_, _, _, _, _, rfl, rfl, rfl, rfl, rfl, ?_⟩
  rw [hst]
  simp [status, stop, find_bus, find_bus_in, not_running, two_entry_table, occupied,
    PX4_OK, PX4_ERROR, List.erase_cons]

/-- Witness for C9 with the driver that always initialises. -/
theorem two_entry_scenario_witness :
    driver_ok.alloc 0 = true ∧ driver_ok.init ⟨0, 1, 0⟩ = PX4_OK ∧
    ∃ r1 r2 r3 r4 r5 : Result,
      r1 = start driver_ok BMM150_BUS.ALL 0 ⟨two_entry_table, ⟨0, []⟩⟩ ∧
      r2 = status BMM150_BUS.ALL r1.world ∧
      r3 = stop BMM150_BUS.I2C_EXTERNAL r2.world ∧
      r4 = stop BMM150_BUS.I2C_INTERNAL r3.world ∧
      r5 = status BMM150_BUS.ALL r4.world ∧
      r1.ret = 0 ∧ r2.ret = 0 ∧ r3.ret ≠ 0 ∧ r4.ret = 0 ∧ r5.ret ≠ 0 :=
  ⟨rfl, rfl,
   match two_entry_scenario driver_ok 0 ⟨0, []⟩ rfl rfl with
   | ⟨r1, r2, r3, r4, r5, h1, h2, h3, h4, h5, e1, e2, e3, e4, e5, _⟩ =>
     ⟨r1, r2, r3, r4, r5, h1, h2, h3, h4, h5, e1, e2, e3, e4, e5⟩⟩

/-! ## Further properties of the lookup and of the scan -/

theorem status_world_eq (busid : BMM150_BUS) (w : World) : (status busid w).world = w := by
  cases hf : find_bus busid w with
  | none => rw [status_of_not_found hf]; rfl
  | some i =>
    obtain ⟨b, d, hb, hd, -, -⟩ := find_bus_some_entry hf
    rw [status_of_found hf hb hd]

theorem stop_ret_zero_iff (busid : BMM150_BUS) (w : World) :
    (stop busid w).ret = 0 ↔ ∃ i, find_bus busid w = some i := by
  cases hf : find_bus busid w with
  | none =>
    rw [stop_of_not_found hf]
    constructor
    · intro h
      exact absurd h PX4_ERROR_ne_zero
    · rintro ⟨i, hi⟩
      cases hi
  | some i =>
    obtain ⟨b, d, hb, hd, -, -⟩ := find_bus_some_entry hf
    rw [stop_of_found hf hb hd]
    exact ⟨fun _ => ⟨i, rfl⟩, fun _ => rfl⟩

theorem status_ret_zero_iff (busid : BMM150_BUS) (w : World) :
    (status busid w).ret = 0 ↔ ∃ i, find_bus busid w = some i := by
  cases hf : find_bus busid w with
  | none =>
    rw [status_of_not_found hf]
    constructor
    · intro h
      exact absurd h PX4_ERROR_ne_zero
    · rintro ⟨i, hi⟩
      cases hi
  | some i =>
    obtain ⟨b, d, hb, hd, -, -⟩ := find_bus_some_entry hf
    rw [status_of_found hf hb hd]
    exact ⟨fun _ => ⟨i, rfl⟩, fun _ => rfl⟩

theorem running_ALL (b : bmm150_bus_option) : running BMM150_BUS.ALL b = occupied b := by
  simp [running, in_scope]

theorem find_bus_ALL_le {s : BMM150_BUS} {w : World} {i : Nat}
    (h : find_bus s w = some i) : ∃ j, find_bus BMM150_BUS.ALL w = some j ∧ j ≤ i := by
  obtain ⟨⟨b, hb, hr⟩, -⟩ := (find_bus_in_eq_some_iff s w.bus_options i).1 h
  have hocc : occupied b = true := ((running_true_iff s b).1 hr).1
  cases hf : find_bus BMM150_BUS.ALL w with
  | none =>
    have := (find_bus_in_eq_none_iff BMM150_BUS.ALL w.bus_options).1 hf b
      (mem_of_getElem?_eq_some hb)
    rw [running_ALL, hocc] at this
    cases this
  | some j =>
    refine ⟨j, rfl, ?_⟩
    obtain ⟨-, hlt⟩ := (find_bus_in_eq_some_iff BMM150_BUS.ALL w.bus_options j).1 hf
    by_contra hgt
    have := hlt i (Nat.lt_of_not_le hgt) b hb
    rw [running_ALL, hocc] at this
    cases this

/-- C17: the selector ALL dominates the specific selectors: when `find_bus(s)` finds
the entry of index `i`, `find_bus(ALL)` finds an entry of index at most `i`; so when
`stop(s)` returns 0 so does `stop(ALL)` on the same world, and likewise for
`status`; and `find_bus(ALL)` returns `nullptr` exactly when every entry of the
table is unoccupied. -/
theorem ALL_dominates (s : BMM150_BUS) (w : World) :
    (∀ i, find_bus s w = some i → ∃ j, find_bus BMM150_BUS.ALL w = some j ∧ j ≤ i) ∧
    ((stop s w).ret = 0 → (stop BMM150_BUS.ALL w).ret = 0) ∧
    ((status s w).ret = 0 → (status BMM150_BUS.ALL w).ret = 0) ∧
    (find_bus BMM150_BUS.ALL w = none ↔ ∀ b ∈ w.bus_options, occupied b = false) := by
  refine ⟨fun i h => find_bus_ALL_le h, ?_, ?_, ?_⟩
  · intro h
    obtain ⟨i, hi⟩ := (stop_ret_zero_iff s w).1 h
    obtain ⟨j, hj, -⟩ := find_bus_ALL_le hi
    exact (stop_ret_zero_iff BMM150_BUS.ALL w).2 ⟨j, hj⟩
  · intro h
    obtain ⟨i, hi⟩ := (status_ret_zero_iff s w).1 h
    obtain ⟨j, hj, -⟩ := find_bus_ALL_le hi
    exact (status_ret_zero_iff BMM150_BUS.ALL w).2 ⟨j, hj⟩
  · rw [find_bus, find_bus_in_eq_none_iff]
    simp only [running_ALL]

/-- C14 as stated fails: with the internal entry occupied, `start(EXTERNAL)` emits
one "already started" warning although no occupied entry is in the scope of the
selector. -/
theorem warning_out_of_scope_counterexample :
    warnings (start driver_ok BMM150_BUS.I2C_EXTERNAL 0
      ⟨[⟨BMM150_BUS.I2C_INTERNAL, 1, 0x10, some ⟨0, 1, 0⟩⟩,
        ⟨BMM150_BUS.I2C_EXTERNAL, 2, 0x12, none⟩], ⟨1, [⟨0, 1, 0⟩]⟩⟩).trace =
      ["already started"] ∧
    List.countP (fun b => occupied b && in_scope BMM150_BUS.I2C_EXTERNAL b)
      [⟨BMM150_BUS.I2C_INTERNAL, 1, 0x10, some ⟨0, 1, 0⟩⟩,
       ⟨BMM150_BUS.I2C_EXTERNAL, 2, 0x12, none⟩] = 0 := by
  decide

/-- C14, amended: the "already started" warnings of one `start(busid, rotation)`
are one for each occupied entry the scan visits, in the scope of the selector or
not: every occupied entry of the table when `start` fails, every occupied entry
before the claimed one when it succeeds; no other warning is emitted. -/
theorem start_warnings (env : Driver) (busid : BMM150_BUS) (rotation : Rotation)
    (w : World) :
    ((start env busid rotation w).ret ≠ PX4_OK →
      warnings (start env busid rotation w).trace =
        List.replicate (w.bus_options.countP occupied) "already started") ∧
    ((start env busid rotation w).ret = PX4_OK →
      ∃ pre b post d,
        w.bus_options = pre ++ b :: post ∧ b.dev = none ∧
        (start env busid rotation w).world.bus_options =
          pre ++ { b with dev := some d } :: post ∧
        warnings (start env busid rotation w).trace =
          List.replicate (pre.countP occupied) "already started") := by
  rcases start_cases env busid rotation w with ⟨hall, hr⟩ | ⟨hex, hr⟩
  · refine ⟨fun _ => ?_, fun h => ?_⟩
    · rw [start_of_all_fail hall]
      exact warnings_failed_scan_trace env busid rotation w.bus_options w.heap.news
    · rw [hr] at h
      exact absurd h PX4_ERROR_ne_OK
  · refine ⟨fun h => absurd hr h, fun _ => ?_⟩
    obtain ⟨pre, b, post, hl, he, hall, hs⟩ :=
      exists_first_ok env busid rotation w.bus_options w.heap.news hex
    refine ⟨pre, b, post,
      ⟨w.heap.news + (pre.filter (eligible busid)).length, b.busnum, rotation⟩,
      hl, ((eligible_iff busid b).1 he).1, ?_, ?_⟩
    · rw [start_of_first_ok hl he hall hs]
    · rw [start_of_first_ok hl he hall hs]
      show warnings (failed_scan_trace env busid rotation w.heap.news pre ++
        ok_trace env rotation _) = _
      rw [warnings_append, warnings_failed_scan_trace, warnings_ok_trace, List.append_nil]

/-! ## The shape of the world after one call -/

theorem split_of_getElem? :
    ∀ (l : List bmm150_bus_option) (i : Nat) (b : bmm150_bus_option),
      l[i]? = some b → ∃ pre post, l = pre ++ b :: post ∧ pre.length = i
  | [], i, b, h => by simp at h
  | c :: l, 0, b, h => by
    simp only [List.getElem?_cons_zero, Option.some.injEq] at h
    exact ⟨[], l, by simp [h], rfl⟩
  | c :: l, i + 1, b, h => by
    obtain ⟨pre, post, hl, hlen⟩ := split_of_getElem? l i b (by simpa using h)
    exact ⟨c :: pre, post, by simp [hl], by simp [hlen]⟩

/-- The two outcomes of `stop`. -/
theorem stop_cases (busid : BMM150_BUS) (w : World) :
    ((∀ b ∈ w.bus_options, running busid b = false) ∧ stop busid w = not_running w) ∨
    (∃ pre b post d,
      w.bus_options = pre ++ b :: post ∧ b.dev = some d ∧ in_scope busid b = true ∧
      (∀ c ∈ pre, running busid c = false) ∧
      stop busid w =
        { ret := PX4_OK,
          world := ⟨pre ++ { b with dev := none } :: post,
                    ⟨w.heap.news, w.heap.live.erase d⟩⟩,
          trace := [Event.delete d] }) := by
  cases hf : find_bus busid w with
  | none =>
    exact Or.inl ⟨(find_bus_in_eq_none_iff busid w.bus_options).1 hf, stop_of_not_found hf⟩
  | some i =>
    right
    obtain ⟨b, d, hb, hd, hs, hlt⟩ := find_bus_some_entry hf
    obtain ⟨pre, post, hl, hlen⟩ := split_of_getElem? w.bus_options i b hb
    refine ⟨pre, b, post, d, hl, hd, hs, ?_, ?_⟩
    · intro c hc
      obtain ⟨j, hj, hcj⟩ := List.getElem_of_mem hc
      refine hlt j (hlen ▸ hj) c ?_
      rw [hl, getElem?_append_of_lt _ pre j hj]
      exact List.getElem?_eq_some_iff.2 ⟨hj, hcj⟩
    · rw [stop_of_found hf hb hd]
      have hset : w.bus_options.set i { b with dev := none } =
          pre ++ { b with dev := none } :: post := by
        rw [hl, ← hlen]
        exact set_length_append b _ post pre
      rw [hset]

/-- The two outcomes of `start`, with the world each leaves. -/
theorem start_world_cases (env : Driver) (busid : BMM150_BUS) (rotation : Rotation)
    (w : World) :
    ((start env busid rotation w).ret = PX4_ERROR ∧
      (start env busid rotation w).world.bus_options = w.bus_options ∧
      (start env busid rotation w).world.heap.live = w.heap.live ∧
      w.heap.news ≤ (start env busid rotation w).world.heap.news) ∨
    ((start env busid rotation w).ret = PX4_OK ∧
      ∃ pre b post d,
        w.bus_options = pre ++ b :: post ∧ b.dev = none ∧ in_scope busid b = true ∧
        w.heap.news ≤ d.id ∧
        (start env busid rotation w).world =
          ⟨pre ++ { b with dev := some d } :: post, ⟨d.id + 1, d :: w.heap.live⟩⟩) := by
  rcases start_cases env busid rotation w with ⟨hall, hr⟩ | ⟨hex, hr⟩
  · left
    rw [start_of_all_fail hall]
    exact ⟨rfl, rfl, rfl, Nat.le_add_right _ _⟩
  · right
    obtain ⟨pre, b, post, hl, he, hall, hs⟩ :=
      exists_first_ok env busid rotation w.bus_options w.heap.news hex
    have hed := (eligible_iff busid b).1 he
    have hsc : in_scope busid b = true := by
      simpa [eligible, occupied, hed.1] using he
    refine ⟨hr, pre, b, post,
      ⟨w.heap.news + (pre.filter (eligible busid)).length, b.busnum, rotation⟩,
      hl, hed.1, hsc, Nat.le_add_right _ _, ?_⟩
    rw [start_of_first_ok hl he hall hs]

theorem map_wiring_replace (pre post : List bmm150_bus_option) (b : bmm150_bus_option)
    (x : Option BMM150) :
    (pre ++ { b with dev := x } :: post).map wiring = (pre ++ b :: post).map wiring := by
  simp [wiring]

theorem countP_occupied_claim (pre post : List bmm150_bus_option) {b : bmm150_bus_option}
    (d : BMM150) (hb : b.dev = none) :
    (pre ++ { b with dev := some d } :: post).countP occupied =
      (pre ++ b :: post).countP occupied + 1 := by
  simp [List.countP_append, List.countP_cons, occupied, hb]
  omega

theorem countP_occupied_clear (pre post : List bmm150_bus_option) {b : bmm150_bus_option}
    {d : BMM150} (hb : b.dev = some d) :
    (pre ++ { b with dev := none } :: post).countP occupied + 1 =
      (pre ++ b :: post).countP occupied := by
  simp [List.countP_append, List.countP_cons, occupied, hb]
  omega

/-- Every call keeps the wiring of the table. -/
theorem step_wiring (env : Driver) (c : Call) (w : World) :
    (step env c w).world.bus_options.map wiring = w.bus_options.map wiring := by
  cases c with
  | start busid rotation =>
    show (start env busid rotation w).world.bus_options.map wiring = _
    rcases start_world_cases env busid rotation w with ⟨-, ht, -, -⟩ |
      ⟨-, pre, b, post, d, hl, -, -, -, hw⟩
    · rw [ht]
    · rw [hw, hl]
      exact map_wiring_replace pre post b (some d)
  | stop busid =>
    show (stop busid w).world.bus_options.map wiring = _
    rcases stop_cases busid w with ⟨-, hst⟩ | ⟨pre, b, post, d, hl, -, -, -, hst⟩
    · rw [hst]
      rfl
    · rw [hst, hl]
      exact map_wiring_replace pre post b none
  | status busid =>
    show (status busid w).world.bus_options.map wiring = _
    rw [(status_world_eq busid w)]

/-- C15: every `start`, `stop` or `status` call keeps the length and the order of
the table and the `busid`, `busnum` and `address` of every entry. A `start` leaves
all entries but at most one as they are, every occupied entry keeps its device, an
entry that changes goes from unoccupied to occupied, and the number of occupied
entries grows by one on success and is unchanged (with the whole table) on
failure. -/
theorem calls_frame (env : Driver) (w : World) :
    (∀ c : Call,
      (step env c w).world.bus_options.map wiring = w.bus_options.map wiring ∧
      (step env c w).world.bus_options.length = w.bus_options.length) ∧
    (∀ (busid : BMM150_BUS) (rotation : Rotation),
      (∃ i : Nat, ∀ j : Nat, j ≠ i →
        (start env busid rotation w).world.bus_options[j]? = w.bus_options[j]?) ∧
      (∀ (j : Nat) b, w.bus_options[j]? = some b → occupied b = true →
        (start env busid rotation w).world.bus_options[j]? = some b) ∧
      (∀ (j : Nat) b b', w.bus_options[j]? = some b →
        (start env busid rotation w).world.bus_options[j]? = some b' → b' ≠ b →
        occupied b = false ∧ occupied b' = true) ∧
      ((start env busid rotation w).ret = PX4_OK →
        (start env busid rotation w).world.bus_options.countP occupied =
          w.bus_options.countP occupied + 1) ∧
      ((start env busid rotation w).ret ≠ PX4_OK →
        (start env busid rotation w).world.bus_options = w.bus_options ∧
        (start env busid rotation w).world.bus_options.countP occupied =
          w.bus_options.countP occupied)) := by
  refine ⟨fun c => ⟨step_wiring env c w, ?_⟩, fun busid rotation => ?_⟩
  · have h := congrArg List.length (step_wiring env c w)
    simpa using h
  · rcases start_world_cases env busid rotation w with ⟨hr, ht, -, -⟩ |
      ⟨hr, pre, b, post, d, hl, hb, -, -, hw⟩
    · refine ⟨⟨0, fun j _ => by rw [ht]⟩, fun j b hj _ => by rw [ht, hj], ?_, ?_, ?_⟩
      · intro j b b' hj hj' hne
        rw [ht, hj] at hj'
        exact absurd (Option.some.inj hj').symm hne
      · intro hok
        rw [hr] at hok
        exact absurd hok PX4_ERROR_ne_OK
      · intro _
        exact ⟨ht, by rw [ht]⟩
    · have ht : (start env busid rotation w).world.bus_options =
          w.bus_options.set pre.length { b with dev := some d } := by
        rw [hw, hl]
        exact (set_length_append b _ post pre).symm
      have hat : w.bus_options[pre.length]? = some b := by
        rw [hl]
        exact getElem?_length_append b post pre
      have hat' : (start env busid rotation w).world.bus_options[pre.length]? =
          some { b with dev := some d } := by
        rw [hw]
        exact getElem?_length_append _ post pre
      have hne : ∀ j, j ≠ pre.length →
          (start env busid rotation w).world.bus_options[j]? = w.bus_options[j]? := by
        intro j hj
        rw [ht]
        exact List.getElem?_set_ne (Ne.symm hj)
      refine ⟨⟨pre.length, hne⟩, ?_, ?_, ?_, ?_⟩
      · intro j c hj hocc
        by_cases hjp : j = pre.length
        · subst hjp
          rw [hat] at hj
          cases hj
          simp [occupied, hb] at hocc
        · rw [hne j hjp, hj]
      · intro j c c' hj hj' hcne
        by_cases hjp : j = pre.length
        · subst hjp
          rw [hat] at hj
          rw [hat'] at hj'
          cases hj
          cases hj'
          simp [occupied, hb]
        · rw [hne j hjp, hj] at hj'
          exact absurd (Option.some.inj hj').symm hcne
      · intro _
        rw [hw, hl]
        exact countP_occupied_claim pre post d hb
      · intro hno
        exact absurd hr hno

/-- A `stop` right after the `start` that claimed the entry `b`, when no entry
before it is occupied and in scope, clears that entry and deletes its device. -/
theorem stop_of_claimed {busid : BMM150_BUS} {w1 : World}
    {pre post : List bmm150_bus_option} {b : bmm150_bus_option} {d : BMM150}
    (ht : w1.bus_options = pre ++ { b with dev := some d } :: post)
    (hb : b.dev = none) (hs : in_scope busid b = true)
    (hpre : ∀ c ∈ pre, running busid c = false) :
    stop busid w1 =
      { ret := PX4_OK,
        world := ⟨pre ++ b :: post, ⟨w1.heap.news, w1.heap.live.erase d⟩⟩,
        trace := [Event.delete d] } := by
  have hrun : running busid { b with dev := some d } = true := by
    simpa [running, occupied, in_scope] using hs
  have hat : w1.bus_options[pre.length]? = some { b with dev := some d } := by
    rw [ht]
    exact getElem?_length_append _ post pre
  have hfirst : find_bus busid w1 = some pre.length := by
    refine (find_bus_in_eq_some_iff busid w1.bus_options pre.length).2 ⟨⟨_, hat, hrun⟩, ?_⟩
    intro j hj bj hbj
    rw [ht, getElem?_append_of_lt _ pre j hj] at hbj
    exact hpre bj (mem_of_getElem?_eq_some hbj)
  have hb' : ({ ({ b with dev := some d } : bmm150_bus_option) with dev := none } :
      bmm150_bus_option) = b := by
    cases b
    simp only [bmm150_bus_option.mk.injEq, true_and]
    exact hb.symm
  have hdev : ({ b with dev := some d } : bmm150_bus_option).dev = some d := rfl
  rw [stop_of_found hfirst hat hdev, hb', ht, set_length_append _ b post pre]

/-- C16: when no entry in the scope of the selector is occupied and
`start(busid, rotation)` returns success, the immediately following `stop(busid)`
returns success, deletes exactly the device `start` recorded and clears exactly the
entry `start` claimed: the table and the live objects after start-then-stop are
those before `start`. -/
theorem start_then_stop_restores (env : Driver) (busid : BMM150_BUS) (rotation : Rotation)
    (w : World)
    (hfree : ∀ b ∈ w.bus_options, in_scope busid b = true → occupied b = false)
    (hok : (start env busid rotation w).ret = PX4_OK) :
    (stop busid (start env busid rotation w).world).ret = PX4_OK ∧
    (stop busid (start env busid rotation w).world).world.bus_options = w.bus_options ∧
    (stop busid (start env busid rotation w).world).world.heap.live = w.heap.live ∧
    ∃ pre b post d,
      w.bus_options = pre ++ b :: post ∧ b.dev = none ∧
      (start env busid rotation w).world.bus_options =
        pre ++ { b with dev := some d } :: post ∧
      (stop busid (start env busid rotation w).world).trace = [Event.delete d] := by
  rcases start_world_cases env busid rotation w with ⟨hr, -, -, -⟩ |
    ⟨-, pre, b, post, d, hl, hb, hs, -, hw⟩
  · rw [hr] at hok
    exact absurd hok PX4_ERROR_ne_OK
  · have hpre : ∀ c ∈ pre, running busid c = false := by
      intro c hc
      have hcm : c ∈ w.bus_options := by
        rw [hl]
        exact List.mem_append_left _ hc
      by_cases hsc : in_scope busid c = true
      · simp [running, hfree c hcm hsc]
      · simp [running, hsc]
    have hst := @stop_of_claimed busid (start env busid rotation w).world pre post b d
      (by rw [hw]) hb hs hpre
    rw [hst]
    refine ⟨rfl, hl.symm, ?_, pre, b, post, d, hl, hb, by rw [hw], rfl⟩
    rw [hw]
    simp

/-- Witness for C16: `start(ALL)` then `stop(ALL)` on the two-entry table. -/
theorem start_then_stop_restores_witness :
    (∀ b ∈ two_entry_table, in_scope BMM150_BUS.ALL b = true → occupied b = false) ∧
    (start driver_ok BMM150_BUS.ALL 0 ⟨two_entry_table, ⟨0, []⟩⟩).ret = PX4_OK ∧
    (stop BMM150_BUS.ALL
      (start driver_ok BMM150_BUS.ALL 0 ⟨two_entry_table, ⟨0, []⟩⟩).world).world.bus_options =
      two_entry_table :=
  ⟨by decide, by decide,
   (start_then_stop_restores driver_ok BMM150_BUS.ALL 0 ⟨two_entry_table, ⟨0, []⟩⟩
      (by decide) (by decide)).2.1⟩

/-! ## Reachable states -/

theorem countP_occupied_of_all {l : List bmm150_bus_option}
    (h : l.all (fun b => !occupied b) = true) : l.countP occupied = 0 := by
  rw [List.countP_eq_zero]
  intro b hb
  have := List.all_eq_true.1 h b hb
  simpa using this

theorem initial_iff (w : World) :
    initial w = true ↔ (w.bus_options.all (fun b => !occupied b) = true ∧ w.heap.live = []) := by
  simp [initial, List.isEmpty_iff]

theorem stop_countP_le (busid : BMM150_BUS) (w : World) :
    (stop busid w).world.bus_options.countP occupied ≤ w.bus_options.countP occupied := by
  rcases stop_cases busid w with ⟨-, hst⟩ | ⟨pre, b, post, d, hl, hd, -, -, hst⟩
  · rw [hst]
    exact Nat.le_refl _
  · rw [hst, hl]
    have := countP_occupied_clear pre post hd
    show (pre ++ { b with dev := none } :: post).countP occupied ≤ _
    omega

theorem start_countP_of_free (env : Driver) (busid : BMM150_BUS) (rotation : Rotation)
    {w : World} (h : w.bus_options.countP occupied = 0) :
    (start env busid rotation w).world.bus_options.countP occupied ≤ 1 := by
  rcases start_world_cases env busid rotation w with ⟨-, ht, -, -⟩ |
    ⟨-, pre, b, post, d, hl, hb, -, -, hw⟩
  · rw [ht, h]
    exact Nat.zero_le _
  · rw [hw]
    show (pre ++ { b with dev := some d } :: post).countP occupied ≤ 1
    rw [countP_occupied_claim pre post d hb, ← hl, h]

/-- Sequences whose `start` calls are all made with no occupied entry keep at most
one entry occupied. -/
theorem run_guarded_countP (env : Driver) :
    ∀ (cs : List Call) (w : World), w.bus_options.countP occupied ≤ 1 →
      start_guarded env cs w = true → (run env cs w).bus_options.countP occupied ≤ 1
  | [], w, h, _ => h
  | c :: cs, w, h, hg => by
    simp only [start_guarded, Bool.and_eq_true] at hg
    refine run_guarded_countP env cs (step env c w).world ?_ hg.2
    cases c with
    | start busid rotation =>
      exact start_countP_of_free env busid rotation (countP_occupied_of_all hg.1)
    | stop busid => exact Nat.le_trans (stop_countP_le busid w) h
    | status busid =>
      show (status busid w).world.bus_options.countP occupied ≤ 1
      rw [status_world_eq]
      exact h

/-- C11 as stated fails: from the two-entry table with no occupied entry,
`start(ALL)` twice leaves both entries occupied, two entries in the scope of the
selector ALL. -/
theorem two_occupied_counterexample :
    initial ⟨two_entry_table, ⟨0, []⟩⟩ = true ∧
    (run driver_ok [Call.start BMM150_BUS.ALL 0, Call.start BMM150_BUS.ALL 0]
      ⟨two_entry_table, ⟨0, []⟩⟩).bus_options.countP
        (fun b => occupied b && in_scope BMM150_BUS.ALL b) = 2 := by
  decide

/-- C11, amended: in every state reached from a table with no occupied entry by a
finite sequence of `start`, `stop` and `status` calls, whatever the selectors and
the outcomes of `init()`, in which each `start` is called when no entry is occupied,
at most one entry is occupied, hence for every selector at most one entry in its
scope is occupied. -/
theorem guarded_runs_one_occupied (env : Driver) (cs : List Call) (w0 : World)
    (h0 : initial w0 = true) (hg : start_guarded env cs w0 = true) :
    (run env cs w0).bus_options.countP occupied ≤ 1 ∧
    ∀ sel : BMM150_BUS,
      (run env cs w0).bus_options.countP (fun b => occupied b && in_scope sel b) ≤ 1 := by
  have h1 : (run env cs w0).bus_options.countP occupied ≤ 1 := by
    refine run_guarded_countP env cs w0 ?_ hg
    rw [countP_occupied_of_all ((initial_iff w0).1 h0).1]
    exact Nat.zero_le _
  refine ⟨h1, fun sel => Nat.le_trans (List.countP_mono_left ?_) h1⟩
  intro b _ hb
  simp only [Bool.and_eq_true] at hb
  exact hb.1

/-- Witness for the amended C11: start, status, stop, start on the two-entry
table. -/
theorem guarded_runs_one_occupied_witness :
    initial ⟨two_entry_table, ⟨0, []⟩⟩ = true ∧
    start_guarded driver_ok
      [Call.start BMM150_BUS.ALL 0, Call.status BMM150_BUS.ALL,
       Call.stop BMM150_BUS.I2C_INTERNAL, Call.start BMM150_BUS.I2C_EXTERNAL 0]
      ⟨two_entry_table, ⟨0, []⟩⟩ = true ∧
    (run driver_ok
      [Call.start BMM150_BUS.ALL 0, Call.status BMM150_BUS.ALL,
       Call.stop BMM150_BUS.I2C_INTERNAL, Call.start BMM150_BUS.I2C_EXTERNAL 0]
      ⟨two_entry_table, ⟨0, []⟩⟩).bus_options.countP occupied ≤ 1 :=
  ⟨by decide, by decide,
   (guarded_runs_one_occupied driver_ok
      [Call.start BMM150_BUS.ALL 0, Call.status BMM150_BUS.ALL,
       Call.stop BMM150_BUS.I2C_INTERNAL, Call.start BMM150_BUS.I2C_EXTERNAL 0]
      ⟨two_entry_table, ⟨0, []⟩⟩ (by decide) (by decide)).1⟩

theorem devices_split_none (pre post : List bmm150_bus_option) {b : bmm150_bus_option}
    (hb : b.dev = none) : devices (pre ++ b :: post) = devices pre ++ devices post := by
  simp [devices, List.filterMap_append, List.filterMap_cons, hb]

theorem devices_split_some (pre post : List bmm150_bus_option) {b : bmm150_bus_option}
    {d : BMM150} (hb : b.dev = some d) :
    devices (pre ++ b :: post) = devices pre ++ d :: devices post := by
  simp [devices, List.filterMap_append, List.filterMap_cons, hb]

theorem owned_of_initial {w : World} (h : initial w = true) : owned w := by
  obtain ⟨hall, hlive⟩ := (initial_iff w).1 h
  have hdev : devices w.bus_options = [] := by
    rw [devices, List.filterMap_eq_nil_iff]
    intro b hb
    have := List.all_eq_true.1 hall b hb
    cases hd : b.dev with
    | none => rfl
    | some d => simp [occupied, hd] at this
  refine ⟨by rw [hlive, hdev], by rw [hdev]; exact List.nodup_nil, ?_⟩
  intro d hd
  rw [hdev] at hd
  cases hd

/-- A successful `start` in an owned world records a fresh object. -/
theorem start_owned (env : Driver) (busid : BMM150_BUS) (rotation : Rotation) {w : World}
    (h : owned w) : owned (start env busid rotation w).world := by
  obtain ⟨hperm, hnd, hid⟩ := h
  rcases start_world_cases env busid rotation w with ⟨-, ht, hlive, hnews⟩ |
    ⟨-, pre, b, post, d, hl, hb, -, hge, hw⟩
  · refine ⟨by rw [ht, hlive]; exact hperm, by rw [ht]; exact hnd, ?_⟩
    intro d hd
    rw [ht] at hd
    exact Nat.lt_of_lt_of_le (hid d hd) hnews
  · have hold : devices w.bus_options = devices pre ++ devices post := by
      rw [hl]
      exact devices_split_none pre post hb
    have hnew : devices (pre ++ { b with dev := some d } :: post) =
        devices pre ++ d :: devices post := devices_split_some pre post rfl
    have hfresh : d ∉ devices pre ++ devices post := by
      intro hmem
      have := hid d (hold ▸ hmem)
      omega
    rw [hw]
    refine ⟨?_, ?_, ?_⟩
    · show List.Perm (d :: w.heap.live) (devices (pre ++ { b with dev := some d } :: post))
      rw [hnew]
      exact ((List.Perm.cons d hperm).trans (by rw [hold])).trans List.perm_middle.symm
    · show (devices (pre ++ { b with dev := some d } :: post)).Nodup
      rw [hnew]
      exact List.nodup_middle.2 (List.nodup_cons.2 ⟨hfresh, hold ▸ hnd⟩)
    · intro e he
      change e ∈ devices (pre ++ { b with dev := some d } :: post) at he
      show e.id < d.id + 1
      rw [hnew] at he
      rcases List.mem_append.1 he with hp | hq
      · have := hid e (hold ▸ List.mem_append_left _ hp)
        omega
      · rcases List.mem_cons.1 hq with rfl | hq
        · exact Nat.lt_succ_self _
        · have := hid e (hold ▸ List.mem_append_right _ hq)
          omega

theorem stop_owned (busid : BMM150_BUS) {w : World} (h : owned w) :
    owned (stop busid w).world := by
  obtain ⟨hperm, hnd, hid⟩ := h
  rcases stop_cases busid w with ⟨-, hst⟩ | ⟨pre, b, post, d, hl, hd, -, -, hst⟩
  · rw [hst]
    exact ⟨hperm, hnd, hid⟩
  · have hold : devices w.bus_options = devices pre ++ d :: devices post := by
      rw [hl]
      exact devices_split_some pre post hd
    have hnew : devices (pre ++ { b with dev := none } :: post) =
        devices pre ++ devices post := devices_split_none pre post rfl
    have hnd' : (d :: (devices pre ++ devices post)).Nodup :=
      List.nodup_middle.1 (hold ▸ hnd)
    rw [hst]
    refine ⟨?_, ?_, ?_⟩
    · show List.Perm (w.heap.live.erase d) (devices (pre ++ { b with dev := none } :: post))
      rw [hnew]
      have h1 : List.Perm w.heap.live (d :: (devices pre ++ devices post)) :=
        hperm.trans (by rw [hold]; exact List.perm_middle)
      have h2 := List.Perm.erase d h1
      simpa using h2
    · show (devices (pre ++ { b with dev := none } :: post)).Nodup
      rw [hnew]
      exact (List.nodup_cons.1 hnd').2
    · intro e he
      change e ∈ devices (pre ++ { b with dev := none } :: post) at he
      rw [hnew] at he
      refine hid e ?_
      rw [hold]
      rcases List.mem_append.1 he with hp | hq
      · exact List.mem_append_left _ hp
      · exact List.mem_append_right _ (List.mem_cons_of_mem _ hq)

theorem step_owned (env : Driver) (c : Call) {w : World} (h : owned w) :
    owned (step env c w).world := by
  cases c with
  | start busid rotation => exact start_owned env busid rotation h
  | stop busid => exact stop_owned busid h
  | status busid =>
    show owned (status busid w).world
    rw [status_world_eq]
    exact h

theorem run_owned (env : Driver) :
    ∀ (cs : List Call) (w : World), owned w → owned (run env cs w)
  | [], _, h => h
  | c :: cs, w, h => run_owned env cs (step env c w).world (step_owned env c h)

theorem owned_of_reachable {env : Driver} {w : World} (h : reachable env w) : owned w := by
  obtain ⟨cs, w0, h0, rfl⟩ := h
  exact run_owned env cs w0 (owned_of_initial h0)

/-- C12: in every state reachable from a state with no occupied entry and no live
object, the live driver objects are exactly the objects held by the occupied
entries, each held by one entry only. From such a state a failed `start` leaves the
live objects and the table as they were, a successful `start` adds exactly the
fresh object it records in the claimed entry, a successful `stop` removes exactly
the object of the entry it clears, a failed `stop` and `status` change nothing. -/
theorem live_objects_are_held (env : Driver) (w : World) (hr : reachable env w) :
    List.Perm w.heap.live (devices w.bus_options) ∧
    (devices w.bus_options).Nodup ∧
    w.heap.live.Nodup ∧
    (∀ (busid : BMM150_BUS) (rotation : Rotation),
      ((start env busid rotation w).ret ≠ PX4_OK →
        (start env busid rotation w).world.heap.live = w.heap.live ∧
        (start env busid rotation w).world.bus_options = w.bus_options) ∧
      ((start env busid rotation w).ret = PX4_OK →
        ∃ pre b post d,
          w.bus_options = pre ++ b :: post ∧ b.dev = none ∧
          (start env busid rotation w).world.bus_options =
            pre ++ { b with dev := some d } :: post ∧
          (start env busid rotation w).world.heap.live = d :: w.heap.live ∧
          d ∉ w.heap.live)) ∧
    (∀ busid : BMM150_BUS,
      ((stop busid w).ret ≠ PX4_OK → (stop busid w).world = w) ∧
      ((stop busid w).ret = PX4_OK →
        ∃ pre b post d,
          w.bus_options = pre ++ b :: post ∧ b.dev = some d ∧
          (stop busid w).world.bus_options = pre ++ { b with dev := none } :: post ∧
          (stop busid w).world.heap.live = w.heap.live.erase d ∧
          d ∈ w.heap.live ∧ d ∉ (stop busid w).world.heap.live)) ∧
    (∀ busid : BMM150_BUS, (status busid w).world = w) := by
  obtain ⟨hperm, hnd, hid⟩ := owned_of_reachable hr
  have hlnd : w.heap.live.Nodup := hperm.nodup_iff.2 hnd
  refine ⟨hperm, hnd, hlnd, fun busid rotation => ⟨?_, ?_⟩, fun busid => ⟨?_, ?_⟩,
    fun busid => status_world_eq busid w⟩
  · intro hne
    rcases start_world_cases env busid rotation w with ⟨-, ht, hlive, -⟩ | ⟨hok, -⟩
    · exact ⟨hlive, ht⟩
    · exact absurd hok hne
  · intro hok
    rcases start_world_cases env busid rotation w with ⟨hr', -⟩ |
      ⟨-, pre, b, post, d, hl, hb, -, hge, hw⟩
    · rw [hr'] at hok
      exact absurd hok PX4_ERROR_ne_OK
    · refine ⟨pre, b, post, d, hl, hb, by rw [hw], by rw [hw], ?_⟩
      intro hmem
      have := hid d (hperm.subset hmem)
      omega
  · intro hne
    rcases stop_cases busid w with ⟨-, hst⟩ | ⟨pre, b, post, d, -, -, -, -, hst⟩
    · rw [hst]
      rfl
    · rw [hst] at hne
      exact absurd rfl hne
  · intro hok
    rcases stop_cases busid w with ⟨-, hst⟩ | ⟨pre, b, post, d, hl, hd, -, -, hst⟩
    · rw [hst] at hok
      exact absurd hok PX4_ERROR_ne_OK
    · have hmem : d ∈ w.heap.live := by
        refine hperm.symm.subset ?_
        rw [hl, devices_split_some pre post hd]
        simp
      refine ⟨pre, b, post, d, hl, hd, by rw [hst], by rw [hst], hmem, ?_⟩
      rw [hst]
      exact hlnd.not_mem_erase

/-- Witness for C12: the state after `start(ALL)` on the two-entry table. -/
theorem live_objects_are_held_witness :
    reachable driver_ok
      ⟨[⟨BMM150_BUS.I2C_INTERNAL, 1, 0x10, some ⟨0, 1, 0⟩⟩,
        ⟨BMM150_BUS.I2C_EXTERNAL, 2, 0x12, none⟩], ⟨1, [⟨0, 1, 0⟩]⟩⟩ ∧
    List.Perm [(⟨0, 1, 0⟩ : BMM150)]
      (devices [⟨BMM150_BUS.I2C_INTERNAL, 1, 0x10, some ⟨0, 1, 0⟩⟩,
        ⟨BMM150_BUS.I2C_EXTERNAL, 2, 0x12, none⟩]) :=
  ⟨⟨[Call.start BMM150_BUS.ALL 0], ⟨two_entry_table, ⟨0, []⟩⟩, by decide, by decide⟩,
   (live_objects_are_held driver_ok
      ⟨[⟨BMM150_BUS.I2C_INTERNAL, 1, 0x10, some ⟨0, 1, 0⟩⟩,
        ⟨BMM150_BUS.I2C_EXTERNAL, 2, 0x12, none⟩], ⟨1, [⟨0, 1, 0⟩]⟩⟩
      ⟨[Call.start BMM150_BUS.ALL 0], ⟨two_entry_table, ⟨0, []⟩⟩, by decide, by decide⟩).1⟩

/-! ## The command line -/

theorem option_loop_of_bad (to_rotation : Option String → Rotation) :
    ∀ (opts : List (Char × Option String)) (busid : BMM150_BUS) (rotation : Rotation),
      (∃ o ∈ opts, o.1 ≠ 'X' ∧ o.1 ≠ 'I' ∧ o.1 ≠ 'R') →
      option_loop to_rotation opts busid rotation = none
  | [], _, _, h => by simp at h
  | (ch, a) :: more, busid, rotation, h => by
    obtain ⟨o, ho, hX, hI, hR⟩ := h
    by_cases h1 : ch = 'X'
    · rcases List.mem_cons.1 ho with rfl | hmem
      · exact absurd h1 hX
      · simp only [option_loop, h1, if_true]
        exact option_loop_of_bad to_rotation more _ _ ⟨o, hmem, hX, hI, hR⟩
    · by_cases h2 : ch = 'I'
      · rcases List.mem_cons.1 ho with rfl | hmem
        · exact absurd h2 hI
        · simp only [option_loop, h1, h2, if_true, if_false]
          exact option_loop_of_bad to_rotation more _ _ ⟨o, hmem, hX, hI, hR⟩
      · by_cases h3 : ch = 'R'
        · rcases List.mem_cons.1 ho with rfl | hmem
          · exact absurd h3 hR
          · simp only [option_loop, h1, h2, h3, if_true, if_false]
            exact option_loop_of_bad to_rotation more _ _ ⟨o, hmem, hX, hI, hR⟩
        · simp only [option_loop, h1, h2, h3, if_false]

theorem info_not_mem_failed_trace (env : Driver) (rotation : Rotation)
    (p : Nat × bmm150_bus_option) (msg : String) :
    Event.info msg ∉ failed_trace env rotation p := by
  unfold failed_trace
  split <;> simp

theorem info_not_mem_failed_scan_trace (env : Driver) (busid : BMM150_BUS)
    (rotation : Rotation) (msg : String) :
    ∀ (l : List bmm150_bus_option) (n : Nat),
      Event.info msg ∉ failed_scan_trace env busid rotation n l
  | [], n => by simp [failed_scan_trace]
  | b :: rest, n => by
    have ih := info_not_mem_failed_scan_trace env busid rotation msg rest
    unfold failed_scan_trace
    split
    · simp [ih n]
    · split
      · simp [ih (n + 1), info_not_mem_failed_trace]
      · exact ih n

theorem info_not_mem_start (env : Driver) (busid : BMM150_BUS) (rotation : Rotation)
    (w : World) (msg : String) : Event.info msg ∉ (start env busid rotation w).trace := by
  rcases start_cases env busid rotation w with ⟨hall, -⟩ | ⟨hex, -⟩
  · rw [start_of_all_fail hall]
    exact info_not_mem_failed_scan_trace env busid rotation msg _ _
  · obtain ⟨pre, b, post, hl, he, hall, hs⟩ :=
      exists_first_ok env busid rotation w.bus_options w.heap.news hex
    rw [start_of_first_ok hl he hall hs]
    show Event.info msg ∉ failed_scan_trace env busid rotation w.heap.news pre ++
      ok_trace env rotation _
    simp [info_not_mem_failed_scan_trace, ok_trace]

theorem info_not_mem_stop (busid : BMM150_BUS) (w : World) (msg : String) :
    Event.info msg ∉ (stop busid w).trace := by
  rcases stop_cases busid w with ⟨-, hst⟩ | ⟨pre, b, post, d, -, -, -, -, hst⟩ <;>
    rw [hst] <;> simp [not_running]

theorem info_not_mem_status (busid : BMM150_BUS) (w : World) (msg : String) :
    Event.info msg ∉ (status busid w).trace := by
  cases hf : find_bus busid w with
  | none =>
    rw [status_of_not_found hf]
    simp [not_running]
  | some i =>
    obtain ⟨b, d, hb, hd, -, -⟩ := find_bus_some_entry hf
    rw [status_of_found hf hb hd]
    simp

/-- With valid options and a known verb `bmm150_main` calls the operation: here
`-I start` runs `start(I2C_INTERNAL, ROTATION_NONE)`. -/
theorem bmm150_main_dispatch (env : Driver) (w : World) :
    bmm150_main env (shell_fixed ⟨[('I', none)], ["start"]⟩) ["bmm150", "-I", "start"] w =
      start env BMM150_BUS.I2C_INTERNAL ROTATION_NONE w := by
  simp [bmm150_main, shell_fixed, option_loop]

/-- C13: when `px4_getopt` returns an option other than `X`, `I`, `R`, or no
argument is left after the options, or the verb is none of "start", "stop",
"status", `bmm150_main` takes the `usage()` exit: it returns 0, leaves the world
unchanged and emits only the usage lines, which none of `start`, `stop`, `status`
ever emits. -/
theorem bmm150_main_usage (env : Driver) (sh : Shell) (argv : List String) (w : World)
    (h : (∃ o ∈ (sh.px4_getopt argv).opts, o.1 ≠ 'X' ∧ o.1 ≠ 'I' ∧ o.1 ≠ 'R') ∨
      (sh.px4_getopt argv).rest = [] ∨
      (∃ verb more, (sh.px4_getopt argv).rest = verb :: more ∧
        verb ≠ "start" ∧ verb ≠ "stop" ∧ verb ≠ "status")) :
    bmm150_main env sh argv w = usage w ∧
    (bmm150_main env sh argv w).ret = 0 ∧
    (bmm150_main env sh argv w).world = w ∧
    (bmm150_main env sh argv w).trace ≠ [] ∧
    (∀ e ∈ (bmm150_main env sh argv w).trace, ∃ msg, e = Event.info msg) ∧
    (∀ (busid : BMM150_BUS) (rotation : Rotation) (v : World) (msg : String),
      Event.info msg ∉ (start env busid rotation v).trace ∧
      Event.info msg ∉ (stop busid v).trace ∧
      Event.info msg ∉ (status busid v).trace) := by
  have hmain : bmm150_main env sh argv w = usage w := by
    unfold bmm150_main
    rcases h with hbad | hnone | ⟨verb, more, hrest, h1, h2, h3⟩
    · rw [option_loop_of_bad sh.to_rotation _ _ _ hbad]
    · rw [hnone]
      cases option_loop sh.to_rotation (sh.px4_getopt argv).opts BMM150_BUS.ALL
        ROTATION_NONE with
      | none => rfl
      | some p => rfl
    · rw [hrest]
      cases option_loop sh.to_rotation (sh.px4_getopt argv).opts BMM150_BUS.ALL
        ROTATION_NONE with
      | none => rfl
      | some p => simp [h1, h2, h3]
  rw [hmain]
  refine ⟨rfl, rfl, rfl, by simp [usage], ?_, fun busid rotation v msg =>
    ⟨info_not_mem_start env busid rotation v msg, info_not_mem_stop busid v msg,
     info_not_mem_status busid v msg⟩⟩
  intro e he
  simp only [usage, List.mem_cons, List.mem_singleton, List.not_mem_nil, or_false] at he
  rcases he with rfl | rfl | rfl | rfl | rfl <;> exact ⟨_, rfl⟩

/-- Witness for C13: the unknown option `-Z` before the verb `start`. -/
theorem bmm150_main_usage_witness :
    (∃ o ∈ ((shell_fixed ⟨[('Z', none)], ["start"]⟩).px4_getopt
        ["bmm150", "-Z", "start"]).opts, o.1 ≠ 'X' ∧ o.1 ≠ 'I' ∧ o.1 ≠ 'R') ∧
    (bmm150_main driver_ok (shell_fixed ⟨[('Z', none)], ["start"]⟩)
      ["bmm150", "-Z", "start"] ⟨two_entry_table, ⟨0, []⟩⟩).ret = 0 :=
  ⟨⟨('Z', none), by simp [shell_fixed], by decide, by decide, by decide⟩,
   (bmm150_main_usage driver_ok (shell_fixed ⟨[('Z', none)], ["start"]⟩)
      ["bmm150", "-Z", "start"] ⟨two_entry_table, ⟨0, []⟩⟩
      (Or.inl ⟨('Z', none), by simp [shell_fixed], by decide, by decide, by decide⟩)).2.1⟩

end bmm150
